import Mathlib

/-!
# Verification of the Snap-Hero annotation-editor core

Shallow embedding of the annotation model, hit-testing/selection engine,
move/resize transforms and undo/redo history of the Snap-Hero screenshot
editor (`src/editor/modules/*`), together with proofs and refutations of
the frozen specification claims.

Coordinates are embedded as exact rationals (`ℚ`).  JavaScript number
comparisons such as `Math.sqrt(d) < tol` are embedded in the equivalent
squared form `d < tol^2` (both sides are non-negative and `Real.sqrt` is
monotone), so that every definition stays executable and decidable.

JavaScript objects live on a heap and are copied by reference; all scalar
fields of the annotation classes are copied field-by-field by the code
under study, so a value-level embedding is faithful for them.  The one
place where reference semantics is observable — the `Point` objects inside
`Stroke.points`, which `saveToHistory` copies with a shallow `[...]` spread
and which `moveAnnotation` mutates in place — is modelled explicitly with a
point heap (see the `HeapModel` section below).
-/

set_option maxHeartbeats 1000000

namespace SnapHero

/-- A point `{x, y}` in image-pixel coordinates (`annotations.js`). -/
structure Point where
  x : ℚ
  y : ℚ
deriving DecidableEq, Repr

/-- Axis-aligned bounding box `{x, y, width, height}` as returned by the
`getBounds()` methods. -/
structure Bounds where
  x : ℚ
  y : ℚ
  width : ℚ
  height : ℚ
deriving DecidableEq, Repr

/-- `class Stroke` from `annotations.js`: freehand polyline. -/
structure Stroke where
  color : String
  lineWidth : ℚ
  points : List Point
deriving DecidableEq, Repr

/-- `class Arrow` from `annotations.js`. -/
structure Arrow where
  startX : ℚ
  startY : ℚ
  endX : ℚ
  endY : ℚ
  color : String
  lineWidth : ℚ
deriving DecidableEq, Repr

/-- `class Rectangle` from `annotations.js`; width/height may be negative
during a drag. -/
structure Rectangle where
  x : ℚ
  y : ℚ
  width : ℚ
  height : ℚ
  color : String
  lineWidth : ℚ
  filled : Bool
deriving DecidableEq, Repr

/-- `class Ellipse` from `annotations.js`. -/
structure Ellipse where
  startX : ℚ
  startY : ℚ
  centerX : ℚ
  centerY : ℚ
  radiusX : ℚ
  radiusY : ℚ
  color : String
  lineWidth : ℚ
  filled : Bool
deriving DecidableEq, Repr

/-- `class BlurRegion` from `annotations.js` (pixelation region). -/
structure BlurRegion where
  x : ℚ
  y : ℚ
  width : ℚ
  height : ℚ
deriving DecidableEq, Repr

/-- `class TextAnnotation` from `annotations.js` (renamed `TextAnn` here). -/
structure TextAnn where
  x : ℚ
  y : ℚ
  text : String
  fontSize : ℚ
  color : String
deriving DecidableEq, Repr

/-- Constructor `new Stroke(color, lineWidth)` (`points` starts empty). -/
def Stroke.new (color : String) (lineWidth : ℚ) : Stroke :=
  ⟨color, lineWidth, []⟩

/-- `Stroke.addPoint(x, y)`. -/
def Stroke.addPoint (s : Stroke) (x y : ℚ) : Stroke :=
  { s with points := s.points ++ [⟨x, y⟩] }

/-- Constructor `new Arrow(startX, startY, color, lineWidth)`
(`endX`/`endY` start at the start point). -/
def Arrow.new (startX startY : ℚ) (color : String) (lineWidth : ℚ) : Arrow :=
  ⟨startX, startY, startX, startY, color, lineWidth⟩

/-- `Arrow.setEnd(x, y)`. -/
def Arrow.setEnd (a : Arrow) (x y : ℚ) : Arrow :=
  { a with endX := x, endY := y }

/-- Constructor `new Rectangle(x, y, color, lineWidth, filled)`. -/
def Rectangle.new (x y : ℚ) (color : String) (lineWidth : ℚ) (filled : Bool) : Rectangle :=
  ⟨x, y, 0, 0, color, lineWidth, filled⟩

/-- `Rectangle.setEnd(endX, endY)`. -/
def Rectangle.setEnd (r : Rectangle) (endX endY : ℚ) : Rectangle :=
  { r with width := endX - r.x, height := endY - r.y }

/-- Constructor `new Ellipse(x, y, color, lineWidth, filled)`. -/
def Ellipse.new (x y : ℚ) (color : String) (lineWidth : ℚ) (filled : Bool) : Ellipse :=
  ⟨x, y, x, y, 0, 0, color, lineWidth, filled⟩

/-- `Ellipse.setEnd(endX, endY)`: recompute center and radii from the drag
start point and the current end point. -/
def Ellipse.setEnd (e : Ellipse) (endX endY : ℚ) : Ellipse :=
  { e with
    centerX := (e.startX + endX) / 2
    centerY := (e.startY + endY) / 2
    radiusX := |endX - e.startX| / 2
    radiusY := |endY - e.startY| / 2 }

/-- Constructor `new BlurRegion(x, y)`. -/
def BlurRegion.new (x y : ℚ) : BlurRegion :=
  ⟨x, y, 0, 0⟩

/-- `BlurRegion.setEnd(endX, endY)`. -/
def BlurRegion.setEnd (b : BlurRegion) (endX endY : ℚ) : BlurRegion :=
  { b with width := endX - b.x, height := endY - b.y }

/-- `Stroke.getBounds()`: `null` for an empty stroke, otherwise the min/max
box of all points.  The source folds `Math.min`/`Math.max` starting from
`±Infinity`; for a non-empty list this equals folding from the first
point, which is how it is written here (ℚ has no infinities). -/
def Stroke.getBounds (s : Stroke) : Option Bounds :=
  match s.points with
  | [] => none
  | p :: ps =>
    let minX := ps.foldl (fun m q => min m q.x) p.x
    let minY := ps.foldl (fun m q => min m q.y) p.y
    let maxX := ps.foldl (fun m q => max m q.x) p.x
    let maxY := ps.foldl (fun m q => max m q.y) p.y
    some ⟨minX, minY, maxX - minX, maxY - minY⟩

/-- `Arrow.getBounds()`. -/
def Arrow.getBounds (a : Arrow) : Bounds :=
  ⟨min a.startX a.endX, min a.startY a.endY, |a.endX - a.startX|, |a.endY - a.startY|⟩

/-- `Rectangle.getBounds()` (normalizes negative width/height). -/
def Rectangle.getBounds (r : Rectangle) : Bounds :=
  ⟨if 0 ≤ r.width then r.x else r.x + r.width,
   if 0 ≤ r.height then r.y else r.y + r.height,
   |r.width|, |r.height|⟩

/-- `Ellipse.getBounds()`. -/
def Ellipse.getBounds (e : Ellipse) : Bounds :=
  ⟨e.centerX - e.radiusX, e.centerY - e.radiusY, e.radiusX * 2, e.radiusY * 2⟩

/-- `BlurRegion.getBounds()` (normalizes negative width/height). -/
def BlurRegion.getBounds (b : BlurRegion) : Bounds :=
  ⟨if 0 ≤ b.width then b.x else b.x + b.width,
   if 0 ≤ b.height then b.y else b.y + b.height,
   |b.width|, |b.height|⟩

/-- `TextAnnotation.getBounds(ctx)` depends on `ctx.measureText`; the text
metric is abstracted as a function `measure : String → ℚ` giving the
measured width of a string at the annotation's font. -/
def TextAnn.getBounds (measure : String → ℚ) (t : TextAnn) : Bounds :=
  ⟨t.x - 4, t.y - t.fontSize, measure t.text + 8, t.fontSize + 8⟩

/-! ## Constants (`constants.js`) -/

/-- `SELECTION.hitTolerance` (px). -/
def hitTolerance : ℚ := 10

/-- `SELECTION.handleSize` (px). -/
def handleSize : ℚ := 8

/-- `HISTORY.maxEntries`. -/
def maxEntries : Nat := 20

/-- `CANVAS.minShapeSize`. -/
def minShapeSize : ℚ := 10

/-- `CANVAS.minArrowLength`. -/
def minArrowLength : ℚ := 5

/-- `CANVAS.textBaselineRatio`. -/
def textBaselineRatio : ℚ := 4 / 5

/-! ## Hit detection (`tool-manager.js`) -/

/-- `pointInBounds(x, y, bounds)`: closed bounding-box containment. -/
def pointInBounds (x y : ℚ) (b : Bounds) : Bool :=
  b.x ≤ x && x ≤ b.x + b.width && b.y ≤ y && y ≤ b.y + b.height

/-- Square of `distanceToLine(px, py, x1, y1, x2, y2)`: the source computes
`Math.sqrt((px-nearX)^2 + (py-nearY)^2)`; we keep the square, and every
comparison `distanceToLine < tol` is embedded as `distanceToLineSq < tol^2`
(equivalent, both sides being non-negative). -/
def distanceToLineSq (px py x1 y1 x2 y2 : ℚ) : ℚ :=
  let a := px - x1
  let b := py - y1
  let c := x2 - x1
  let d := y2 - y1
  let dot := a * c + b * d
  let lenSq := c * c + d * d
  let t0 : ℚ := if lenSq ≠ 0 then dot / lenSq else -1
  let t := max 0 (min 1 t0)
  let nearX := x1 + t * c
  let nearY := y1 + t * d
  (px - nearX) ^ 2 + (py - nearY) ^ 2

/-- The reverse-order search loop `for (let i = len - 1; i >= 0; i--)`:
returns the largest `i < n` with `p i`, or `none`. -/
def revFind (p : Nat → Bool) : Nat → Option Nat
  | 0 => none
  | n + 1 => if p n then some n else revFind p n

/-- Result of `findAnnotationAtPoint`: the `{type, index}` pair (the
`annotation` field of the source result is the list element at `index`). -/
inductive Hit where
  | text (i : Nat)
  | ellipse (i : Nat)
  | rectangle (i : Nat)
  | arrow (i : Nat)
  | stroke (i : Nat)
  | blur (i : Nat)
deriving DecidableEq, Repr

/-- The scene: the six authoritative annotation lists of `state.js`. -/
structure Scene where
  strokes : List Stroke
  arrows : List Arrow
  rectangles : List Rectangle
  ellipses : List Ellipse
  blurs : List BlurRegion
  texts : List TextAnn
deriving DecidableEq, Repr

/-- The empty scene (initial `state.js` lists). -/
def Scene.empty : Scene := ⟨[], [], [], [], [], []⟩

/-- Hit test for one text annotation (bounding-box containment). -/
def textHitB (measure : String → ℚ) (x y : ℚ) (t : TextAnn) : Bool :=
  pointInBounds x y (t.getBounds measure)

/-- Hit test for one ellipse (bounding-box containment). -/
def ellipseHitB (x y : ℚ) (e : Ellipse) : Bool :=
  pointInBounds x y e.getBounds

/-- Hit test for one rectangle (bounding-box containment). -/
def rectHitB (x y : ℚ) (r : Rectangle) : Bool :=
  pointInBounds x y r.getBounds

/-- Hit test for one arrow: distance to the start-end segment under the
tolerance (squared form). -/
def arrowHitB (x y : ℚ) (a : Arrow) : Bool :=
  distanceToLineSq x y a.startX a.startY a.endX a.endY < hitTolerance ^ 2

/-- The inner stroke loop `for (let j = 1; j < points.length; j++)`: true
iff some consecutive segment is within tolerance.  A list with fewer than
two points has no segment and is never hit. -/
def polyHitB (x y : ℚ) : List Point → Bool
  | p1 :: p2 :: rest =>
    (distanceToLineSq x y p1.x p1.y p2.x p2.y < hitTolerance ^ 2) || polyHitB x y (p2 :: rest)
  | _ => false

/-- Hit test for one stroke. -/
def strokeHitB (x y : ℚ) (s : Stroke) : Bool :=
  polyHitB x y s.points

/-- Hit test for one blur region (bounding-box containment). -/
def blurHitB (x y : ℚ) (b : BlurRegion) : Bool :=
  pointInBounds x y b.getBounds

/-- Predicate for index `i` of a list under a per-element test, used by the
reverse search (out-of-range indices test false). -/
def idxHit {α : Type} (l : List α) (p : α → Bool) (i : Nat) : Bool :=
  match l.get? i with
  | some a => p a
  | none => false

/-- `findAnnotationAtPoint(x, y)`: fixed type-priority order text →
ellipse → rectangle → arrow → stroke → blur, each searched from the
last-drawn annotation backward; first match wins. -/
def findAnnotationAtPoint (measure : String → ℚ) (sc : Scene) (x y : ℚ) : Option Hit :=
  match revFind (idxHit sc.texts (textHitB measure x y)) sc.texts.length with
  | some i => some (Hit.text i)
  | none =>
  match revFind (idxHit sc.ellipses (ellipseHitB x y)) sc.ellipses.length with
  | some i => some (Hit.ellipse i)
  | none =>
  match revFind (idxHit sc.rectangles (rectHitB x y)) sc.rectangles.length with
  | some i => some (Hit.rectangle i)
  | none =>
  match revFind (idxHit sc.arrows (arrowHitB x y)) sc.arrows.length with
  | some i => some (Hit.arrow i)
  | none =>
  match revFind (idxHit sc.strokes (strokeHitB x y)) sc.strokes.length with
  | some i => some (Hit.stroke i)
  | none =>
  match revFind (idxHit sc.blurs (blurHitB x y)) sc.blurs.length with
  | some i => some (Hit.blur i)
  | none => none

/-- The four resize drag modes (`'resize-nw'` …). -/
inductive ResizeMode where
  | nw
  | ne
  | sw
  | se
deriving DecidableEq, Repr

/-- `state.dragMode`: `'move'` or a resize handle. -/
inductive DragMode where
  | move
  | resize (m : ResizeMode)
deriving DecidableEq, Repr

/-- `getHandleAtPoint(x, y, bounds)`: tests the four corner handles in
insertion order nw, ne, sw, se with tolerance `handleSize`. -/
def getHandleAtPoint (x y : ℚ) (b : Bounds) : Option ResizeMode :=
  if |x - b.x| ≤ handleSize && |y - b.y| ≤ handleSize then some ResizeMode.nw
  else if |x - (b.x + b.width)| ≤ handleSize && |y - b.y| ≤ handleSize then some ResizeMode.ne
  else if |x - b.x| ≤ handleSize && |y - (b.y + b.height)| ≤ handleSize then some ResizeMode.sw
  else if |x - (b.x + b.width)| ≤ handleSize && |y - (b.y + b.height)| ≤ handleSize then
    some ResizeMode.se
  else none

/-! ## Move / resize (`tool-manager.js`)

The source dispatches on `state.selectedType` over the shared-reference
`annotation` object; here the tagged union is made explicit. -/

/-- One annotation of any of the six variants (the value behind the
`{type, annotation}` pair of the source). -/
inductive Annot where
  | stroke (s : Stroke)
  | arrow (a : Arrow)
  | rectangle (r : Rectangle)
  | ellipse (e : Ellipse)
  | blur (b : BlurRegion)
  | text (t : TextAnn)
deriving DecidableEq, Repr

/-- `annotation.getBounds(ctx)` on the tagged union: `none` only for an
empty stroke. -/
def Annot.getBoundsA (measure : String → ℚ) : Annot → Option Bounds
  | .stroke s => s.getBounds
  | .arrow a => some a.getBounds
  | .rectangle r => some r.getBounds
  | .ellipse e => some e.getBounds
  | .blur b => some b.getBounds
  | .text t => some (t.getBounds measure)

/-- `moveAnnotation(annotation, type, dx, dy)` (renamed `moveAnnot`):
translates every coordinate field appropriate to the variant. -/
def moveAnnot (dx dy : ℚ) : Annot → Annot
  | .stroke s => .stroke { s with points := s.points.map (fun p => ⟨p.x + dx, p.y + dy⟩) }
  | .arrow a => .arrow { a with
      startX := a.startX + dx, startY := a.startY + dy,
      endX := a.endX + dx, endY := a.endY + dy }
  | .rectangle r => .rectangle { r with x := r.x + dx, y := r.y + dy }
  | .blur b => .blur { b with x := b.x + dx, y := b.y + dy }
  | .ellipse e => .ellipse { e with
      centerX := e.centerX + dx, centerY := e.centerY + dy,
      startX := e.startX + dx, startY := e.startY + dy }
  | .text t => .text { t with x := t.x + dx, y := t.y + dy }

/-- JavaScript `v || 1` where `v` is a number: `0` is falsy and replaced
by `1` (guards the proportional-resize divisions). -/
def jsOrOne (q : ℚ) : ℚ :=
  if q = 0 then 1 else q

/-- `applyBoundsToAnnotation(annotation, type, newBounds, original)`
(renamed `applyBoundsToAnnot`). -/
def applyBoundsToAnnot (newBounds original : Bounds) : Annot → Annot
  | .rectangle r => .rectangle { r with
      x := newBounds.x, y := newBounds.y,
      width := newBounds.width, height := newBounds.height }
  | .blur b => .blur { b with
      x := newBounds.x, y := newBounds.y,
      width := newBounds.width, height := newBounds.height }
  | .ellipse e => .ellipse { e with
      centerX := newBounds.x + newBounds.width / 2,
      centerY := newBounds.y + newBounds.height / 2,
      radiusX := newBounds.width / 2,
      radiusY := newBounds.height / 2,
      startX := newBounds.x,
      startY := newBounds.y }
  | .arrow a =>
    let scaleX := newBounds.width / jsOrOne original.width
    let scaleY := newBounds.height / jsOrOne original.height
    .arrow { a with
      startX := newBounds.x + (a.startX - original.x) * scaleX,
      startY := newBounds.y + (a.startY - original.y) * scaleY,
      endX := newBounds.x + (a.endX - original.x) * scaleX,
      endY := newBounds.y + (a.endY - original.y) * scaleY }
  | .stroke s =>
    let scaleX := newBounds.width / jsOrOne original.width
    let scaleY := newBounds.height / jsOrOne original.height
    .stroke { s with points := s.points.map (fun p =>
      ⟨newBounds.x + (p.x - original.x) * scaleX,
       newBounds.y + (p.y - original.y) * scaleY⟩) }
  | .text t => .text { t with
      x := newBounds.x + 4,
      y := newBounds.y + t.fontSize }

/-- `resizeAnnotation(annotation, type, mode, dx, dy, original)` (renamed
`resizeAnnot`): computes the new bounds from the dragged handle, enforces
the 10×10 minimum, then applies them. -/
def resizeAnnot (mode : ResizeMode) (dx dy : ℚ) (original : Bounds) (a : Annot) : Annot :=
  let b1 : Bounds :=
    match mode with
    | .nw => ⟨original.x + dx, original.y + dy, original.width - dx, original.height - dy⟩
    | .ne => ⟨original.x, original.y + dy, original.width + dx, original.height - dy⟩
    | .sw => ⟨original.x + dx, original.y, original.width - dx, original.height + dy⟩
    | .se => ⟨original.x, original.y, original.width + dx, original.height + dy⟩
  let b2 : Bounds := { b1 with width := if b1.width < 10 then 10 else b1.width }
  let b3 : Bounds := { b2 with height := if b2.height < 10 then 10 else b2.height }
  applyBoundsToAnnot b3 original a

/-! ### Division-checked proportional resize (for the NaN-safety claim)

`qdivChecked` models a JavaScript division that poisons the result
(`NaN`/`Infinity`) when the denominator is zero; `none` stands for a
non-finite result.  The checked transforms below re-run the arrow/stroke
branches of `applyBoundsToAnnotation` in this semantics. -/

/-- Division refusing a zero denominator. -/
def qdivChecked (a b : ℚ) : Option ℚ :=
  if b = 0 then none else some (a / b)

/-- Arrow branch of `applyBoundsToAnnotation` with checked division. -/
def applyArrowBoundsChecked (a : Arrow) (newBounds original : Bounds) : Option Arrow :=
  (qdivChecked newBounds.width (jsOrOne original.width)).bind fun scaleX =>
  (qdivChecked newBounds.height (jsOrOne original.height)).bind fun scaleY =>
  some { a with
    startX := newBounds.x + (a.startX - original.x) * scaleX,
    startY := newBounds.y + (a.startY - original.y) * scaleY,
    endX := newBounds.x + (a.endX - original.x) * scaleX,
    endY := newBounds.y + (a.endY - original.y) * scaleY }

/-- Stroke branch of `applyBoundsToAnnotation` with checked division. -/
def applyStrokeBoundsChecked (s : Stroke) (newBounds original : Bounds) : Option Stroke :=
  (qdivChecked newBounds.width (jsOrOne original.width)).bind fun scaleX =>
  (qdivChecked newBounds.height (jsOrOne original.height)).bind fun scaleY =>
  some { s with points := s.points.map (fun p =>
    ⟨newBounds.x + (p.x - original.x) * scaleX,
     newBounds.y + (p.y - original.y) * scaleY⟩) }

/-! ## Editor state (`state.js`) -/

/-- The seven tool identifiers (`TOOLS` in `constants.js`). -/
inductive Tool where
  | select
  | pen
  | text
  | rectangle
  | circle
  | arrow
  | blur
deriving DecidableEq, Repr

/-- `state.pendingText` as set up by `showTextInput`. -/
structure PendingText where
  x : ℚ
  y : ℚ
  fontSize : ℚ
  color : String
deriving DecidableEq, Repr

/-- The mutable editor state of `state.js`.  The source's
`selectedAnnotation` is a live reference into one of the scene lists; it
is modelled by the `(type, index)` pair `selected` (the source stores the
same pair alongside the reference), re-resolved through the scene on each
access.  `inputValue` is the DOM text input's `value`. -/
structure EditorState where
  currentTool : Tool
  color : String
  lineWidth : ℚ
  fontSize : ℚ
  filled : Bool
  isDrawing : Bool
  scene : Scene
  currentStroke : Option Stroke
  currentArrow : Option Arrow
  currentRectangle : Option Rectangle
  currentEllipse : Option Ellipse
  currentBlur : Option BlurRegion
  isEditingText : Bool
  pendingText : Option PendingText
  inputValue : String
  selected : Option Hit
  dragMode : Option DragMode
  dragStartX : ℚ
  dragStartY : ℚ
  originalBounds : Option Bounds
  history : List Scene
  historyIndex : ℤ
deriving DecidableEq, Repr

/-- The initial editor state (`state.js` literal). -/
def initialState : EditorState where
  currentTool := Tool.select
  color := "#ef4444"
  lineWidth := 4
  fontSize := 24
  filled := false
  isDrawing := false
  scene := Scene.empty
  currentStroke := none
  currentArrow := none
  currentRectangle := none
  currentEllipse := none
  currentBlur := none
  isEditingText := false
  pendingText := none
  inputValue := ""
  selected := none
  dragMode := none
  dragStartX := 0
  dragStartY := 0
  originalBounds := none
  history := []
  historyIndex := -1

/-- `clearSelection()` from `state.js`. -/
def clearSelection (s : EditorState) : EditorState :=
  { s with selected := none, dragMode := none, originalBounds := none }

/-! ## History (`history.js`)

`saveToHistory` and `restoreFromHistory` rebuild every annotation with an
explicit per-type copy.  All scalar fields are copied by value; at the
value level each per-type copy is a structural rebuild of the record.
(The copy of `stroke.points` is the spread `[...stroke.points]`, which
copies the *array* but aliases the `Point` objects inside it; that
reference-level behaviour is modelled separately in the heap section.) -/

/-- The stroke copy of `saveToHistory`/`restoreFromHistory`:
`new Stroke(color, lineWidth)` plus `copy.points = [...points]`. -/
def copyStroke (s : Stroke) : Stroke :=
  ⟨s.color, s.lineWidth, s.points⟩

/-- The arrow copy: `new Arrow(startX, startY, color, lineWidth)` plus
`endX`/`endY`. -/
def copyArrow (a : Arrow) : Arrow :=
  ⟨a.startX, a.startY, a.endX, a.endY, a.color, a.lineWidth⟩

/-- The rectangle copy. -/
def copyRectangle (r : Rectangle) : Rectangle :=
  ⟨r.x, r.y, r.width, r.height, r.color, r.lineWidth, r.filled⟩

/-- The ellipse copy. -/
def copyEllipse (e : Ellipse) : Ellipse :=
  ⟨e.startX, e.startY, e.centerX, e.centerY, e.radiusX, e.radiusY, e.color, e.lineWidth, e.filled⟩

/-- The blur-region copy. -/
def copyBlur (b : BlurRegion) : BlurRegion :=
  ⟨b.x, b.y, b.width, b.height⟩

/-- The text copy: `new TextAnnotation(x, y, text, fontSize, color)`. -/
def copyText (t : TextAnn) : TextAnn :=
  ⟨t.x, t.y, t.text, t.fontSize, t.color⟩

/-- The history entry built by `saveToHistory`: all six lists cloned
per-type. -/
def snapshotScene (sc : Scene) : Scene :=
  ⟨sc.strokes.map copyStroke, sc.arrows.map copyArrow, sc.rectangles.map copyRectangle,
   sc.ellipses.map copyEllipse, sc.blurs.map copyBlur, sc.texts.map copyText⟩

/-- The clone performed by `restoreFromHistory` when loading an entry back
into the live lists (same per-type copies; missing lists default to `[]`
via `entry.rectangles || []`, which the typed entry makes vacuous). -/
def restoreScene (entry : Scene) : Scene :=
  ⟨entry.strokes.map copyStroke, entry.arrows.map copyArrow,
   entry.rectangles.map copyRectangle, entry.ellipses.map copyEllipse,
   entry.blurs.map copyBlur, entry.texts.map copyText⟩

/-- `saveToHistory()`: truncate any redo tail, push a deep snapshot,
advance the index, and evict the oldest entry (decrementing the index)
when the depth exceeds `HISTORY.maxEntries`. -/
def saveToHistory (s : EditorState) : EditorState :=
  let hist0 := if s.historyIndex < (s.history.length : ℤ) - 1 then
      s.history.take (s.historyIndex + 1).toNat
    else s.history
  let hist1 := hist0 ++ [snapshotScene s.scene]
  let idx : ℤ := (hist1.length : ℤ) - 1
  if maxEntries < hist1.length then
    { s with history := hist1.tail, historyIndex := idx - 1 }
  else
    { s with history := hist1, historyIndex := idx }

/-- `restoreFromHistory()`: clear the selection, then reload all lists from
`history[historyIndex]`.  An out-of-range index would throw in the source;
it is unreachable from the operations modelled here, and the state is
returned unchanged in that case. -/
def restoreFromHistory (s : EditorState) : EditorState :=
  let s1 := clearSelection s
  match s1.history.get? s1.historyIndex.toNat with
  | some entry => { s1 with scene := restoreScene entry }
  | none => s1

/-- `undo()`: no-op unless `historyIndex > 0`. -/
def undo (s : EditorState) : EditorState :=
  if 0 < s.historyIndex then
    restoreFromHistory { s with historyIndex := s.historyIndex - 1 }
  else s

/-- `redo()`: no-op unless `historyIndex < history.length - 1`. -/
def redo (s : EditorState) : EditorState :=
  if s.historyIndex < (s.history.length : ℤ) - 1 then
    restoreFromHistory { s with historyIndex := s.historyIndex + 1 }
  else s

/-! ## Text tool (`text-tool.js`) -/

/-- JavaScript `String.prototype.trim()` (used as `input.value.trim()`):
strips leading and trailing whitespace.  Defined structurally over the
character list so that it is kernel-computable. -/
def jsTrim (s : String) : String :=
  String.mk (((s.data.dropWhile Char.isWhitespace).reverse.dropWhile Char.isWhitespace).reverse)

/-- `showTextInput(coords)`: open the overlay, remember the pending
position (with the `fontSize × 0.8` baseline offset) and style. -/
def showTextInput (cx cy : ℚ) (s : EditorState) : EditorState :=
  { s with
    isEditingText := true
    inputValue := ""
    pendingText := some (PendingText.mk cx (cy + s.fontSize * textBaselineRatio) s.fontSize s.color) }

/-- `confirmTextInput()`: commit a text annotation (and save to history)
iff the trimmed input is non-empty and a pending position exists; always
close the overlay. -/
def confirmTextInput (s : EditorState) : EditorState :=
  let txt := jsTrim s.inputValue
  let s1 :=
    match s.pendingText with
    | some p =>
      if txt ≠ "" then
        saveToHistory { s with scene :=
          { s.scene with texts := s.scene.texts ++ [TextAnn.mk p.x p.y txt p.fontSize p.color] } }
      else s
    | none => s
  { s1 with isEditingText := false, pendingText := none, inputValue := "" }

/-- `cancelTextInput()`: close the overlay with no mutation. -/
def cancelTextInput (s : EditorState) : EditorState :=
  { s with isEditingText := false, pendingText := none, inputValue := "" }

/-! ## Toolbar (`toolbar.js`) -/

/-- The tool-button click handler of `setupToolbar` for a drawing/select
tool `t` (the `undo`/`redo` buttons dispatch to `undo`/`redo` instead and
do not reach this path): cancel any pending text input, clear the
selection when leaving `select`, then activate the tool. -/
def switchTool (t : Tool) (s : EditorState) : EditorState :=
  let s1 := if s.isEditingText then cancelTextInput s else s
  let s2 := if s1.currentTool = Tool.select ∧ t ≠ Tool.select then clearSelection s1 else s1
  { s2 with currentTool := t }

/-! ## Tool manager: pointer protocol (`tool-manager.js`) -/

/-- Resolve the annotation behind a `{type, index}` pair (the source's
`selectedAnnotation`/`hit.annotation` shared reference). -/
def Scene.getAnnot (sc : Scene) : Hit → Option Annot
  | .stroke i => (sc.strokes.get? i).map Annot.stroke
  | .arrow i => (sc.arrows.get? i).map Annot.arrow
  | .rectangle i => (sc.rectangles.get? i).map Annot.rectangle
  | .ellipse i => (sc.ellipses.get? i).map Annot.ellipse
  | .blur i => (sc.blurs.get? i).map Annot.blur
  | .text i => (sc.texts.get? i).map Annot.text

/-- In-place mutation through the shared reference: apply `f` to the
annotation at `h` and write it back to its list slot. -/
def Scene.updateAt (sc : Scene) (h : Hit) (f : Annot → Annot) : Scene :=
  match h with
  | .stroke i =>
    match sc.strokes.get? i with
    | some v =>
      match f (Annot.stroke v) with
      | .stroke v2 => { sc with strokes := sc.strokes.set i v2 }
      | _ => sc
    | none => sc
  | .arrow i =>
    match sc.arrows.get? i with
    | some v =>
      match f (Annot.arrow v) with
      | .arrow v2 => { sc with arrows := sc.arrows.set i v2 }
      | _ => sc
    | none => sc
  | .rectangle i =>
    match sc.rectangles.get? i with
    | some v =>
      match f (Annot.rectangle v) with
      | .rectangle v2 => { sc with rectangles := sc.rectangles.set i v2 }
      | _ => sc
    | none => sc
  | .ellipse i =>
    match sc.ellipses.get? i with
    | some v =>
      match f (Annot.ellipse v) with
      | .ellipse v2 => { sc with ellipses := sc.ellipses.set i v2 }
      | _ => sc
    | none => sc
  | .blur i =>
    match sc.blurs.get? i with
    | some v =>
      match f (Annot.blur v) with
      | .blur v2 => { sc with blurs := sc.blurs.set i v2 }
      | _ => sc
    | none => sc
  | .text i =>
    match sc.texts.get? i with
    | some v =>
      match f (Annot.text v) with
      | .text v2 => { sc with texts := sc.texts.set i v2 }
      | _ => sc
    | none => sc

/-- `handleSelectMouseDown(coords)`: a resize-handle hit on the current
selection enters resize mode (snapshotting bounds and history first);
otherwise a hit selects and enters move mode (snapshotting history);
otherwise the selection is cleared. -/
def handleSelectMouseDown (measure : String → ℚ) (cx cy : ℚ) (s : EditorState) : EditorState :=
  let handleHit : Option (Bounds × ResizeMode) :=
    match s.selected with
    | some sel =>
      match (s.scene.getAnnot sel).bind (Annot.getBoundsA measure) with
      | some b =>
        match getHandleAtPoint cx cy b with
        | some m => some (b, m)
        | none => none
      | none => none
    | none => none
  match handleHit with
  | some (b, m) =>
    saveToHistory { s with
      dragMode := some (DragMode.resize m)
      dragStartX := cx
      dragStartY := cy
      originalBounds := some b }
  | none =>
    match findAnnotationAtPoint measure s.scene cx cy with
    | some hit =>
      saveToHistory { s with
        selected := some hit
        dragMode := some DragMode.move
        dragStartX := cx
        dragStartY := cy
        originalBounds := (s.scene.getAnnot hit).bind (Annot.getBoundsA measure) }
    | none => clearSelection s

/-- `handleSelectMouseMove(coords)`: apply the move or resize delta to the
selected annotation through the shared reference. -/
def handleSelectMouseMove (cx cy : ℚ) (s : EditorState) : EditorState :=
  let dx := cx - s.dragStartX
  let dy := cy - s.dragStartY
  match s.dragMode, s.selected with
  | some DragMode.move, some sel =>
    { s with
      scene := s.scene.updateAt sel (moveAnnot dx dy)
      dragStartX := cx
      dragStartY := cy }
  | some (DragMode.resize m), some sel =>
    match s.originalBounds with
    | some ob => { s with scene := s.scene.updateAt sel (resizeAnnot m dx dy ob) }
    | none => s
  | _, _ => s

/-- `handleMouseUp()`: in select mode just leave drag mode; otherwise end
the drawing gesture, committing the in-progress annotation to its list
(with a history save) iff it crosses its commit threshold.  The arrow
length test `Math.sqrt(dx² + dy²) > minArrowLength` is embedded squared. -/
def handleMouseUp (s : EditorState) : EditorState :=
  if s.currentTool = Tool.select then { s with dragMode := none }
  else if s.isDrawing = false then s
  else
    let s1 := { s with isDrawing := false }
    if s1.currentTool = Tool.pen then
      match s1.currentStroke with
      | some str =>
        let s2 :=
          if 0 < str.points.length then
            saveToHistory { s1 with scene :=
              { s1.scene with strokes := s1.scene.strokes ++ [str] } }
          else s1
        { s2 with currentStroke := none }
      | none => s1
    else if s1.currentTool = Tool.arrow then
      match s1.currentArrow with
      | some a =>
        let dx := a.endX - a.startX
        let dy := a.endY - a.startY
        let s2 :=
          if minArrowLength ^ 2 < dx * dx + dy * dy then
            saveToHistory { s1 with scene :=
              { s1.scene with arrows := s1.scene.arrows ++ [a] } }
          else s1
        { s2 with currentArrow := none }
      | none => s1
    else if s1.currentTool = Tool.rectangle then
      match s1.currentRectangle with
      | some r =>
        let s2 :=
          if minShapeSize < |r.width| + |r.height| then
            saveToHistory { s1 with scene :=
              { s1.scene with rectangles := s1.scene.rectangles ++ [r] } }
          else s1
        { s2 with currentRectangle := none }
      | none => s1
    else if s1.currentTool = Tool.circle then
      match s1.currentEllipse with
      | some e =>
        let s2 :=
          if minArrowLength < e.radiusX + e.radiusY then
            saveToHistory { s1 with scene :=
              { s1.scene with ellipses := s1.scene.ellipses ++ [e] } }
          else s1
        { s2 with currentEllipse := none }
      | none => s1
    else if s1.currentTool = Tool.blur then
      match s1.currentBlur with
      | some b =>
        let s2 :=
          if minShapeSize < |b.width| + |b.height| then
            saveToHistory { s1 with scene :=
              { s1.scene with blurs := s1.scene.blurs ++ [b] } }
          else s1
        { s2 with currentBlur := none }
      | none => s1
    else s1

/-- `editor.js` binds the canvas `mouseleave` event to the very same
`handleMouseUp` handler (`canvas.addEventListener('mouseleave',
handleMouseUp)`), so leaving the surface runs the release logic. -/
def handleMouseLeave (s : EditorState) : EditorState :=
  handleMouseUp s

/-- `handleMouseDown(e)`: confirm a pending text entry, or dispatch to the
select/text tools, or start a drawing gesture with a freshly instantiated
in-progress annotation styled by the current settings. -/
def handleMouseDown (measure : String → ℚ) (cx cy : ℚ) (s : EditorState) : EditorState :=
  if s.isEditingText then confirmTextInput s
  else if s.currentTool = Tool.select then handleSelectMouseDown measure cx cy s
  else if s.currentTool = Tool.text then showTextInput cx cy s
  else
    let s1 := { s with isDrawing := true }
    match s1.currentTool with
    | Tool.pen =>
      { s1 with currentStroke := some ((Stroke.new s1.color s1.lineWidth).addPoint cx cy) }
    | Tool.arrow => { s1 with currentArrow := some (Arrow.new cx cy s1.color s1.lineWidth) }
    | Tool.rectangle =>
      { s1 with currentRectangle := some (Rectangle.new cx cy s1.color s1.lineWidth s1.filled) }
    | Tool.circle =>
      { s1 with currentEllipse := some (Ellipse.new cx cy s1.color s1.lineWidth s1.filled) }
    | Tool.blur => { s1 with currentBlur := some (BlurRegion.new cx cy) }
    | _ => { s1 with isDrawing := false }

/-- The pen branch of `handleMouseMove`: append the sampled point to the
in-progress stroke (the incremental segment draw has no state effect). -/
def handleMouseMovePen (cx cy : ℚ) (s : EditorState) : EditorState :=
  match s.currentStroke with
  | some str => { s with currentStroke := some (str.addPoint cx cy) }
  | none => s

/-- The body of the `requestAnimationFrame` callback scheduled by
`scheduleShapeRedraw`: apply the buffered coordinates to the in-progress
shape via `setEnd` (the preview drawing has no state effect).  Pointer
moves overwrite `pendingCoords` and at most one callback is pending, so in
the single-threaded event order each burst of moves results in one
invocation with the latest coordinates. -/
def shapeRafCallback (cx cy : ℚ) (s : EditorState) : EditorState :=
  if s.isDrawing then
    if s.currentTool = Tool.arrow then
      match s.currentArrow with
      | some a => { s with currentArrow := some (a.setEnd cx cy) }
      | none => s
    else if s.currentTool = Tool.rectangle then
      match s.currentRectangle with
      | some r => { s with currentRectangle := some (r.setEnd cx cy) }
      | none => s
    else if s.currentTool = Tool.circle then
      match s.currentEllipse with
      | some e => { s with currentEllipse := some (e.setEnd cx cy) }
      | none => s
    else if s.currentTool = Tool.blur then
      match s.currentBlur with
      | some b => { s with currentBlur := some (b.setEnd cx cy) }
      | none => s
    else s
  else s

/-! ## Renderer classification (`canvas-renderer.js`, `drawStroke`)

Only the branch structure of `drawStroke` is modelled: which primitive a
stroke is rendered as. -/

/-- What `drawStroke` paints for a given stroke. -/
inductive StrokeRender where
  | nothing
  | dot (center : Point) (radius : ℚ)
  | polyline (points : List Point)
deriving DecidableEq, Repr

/-- `drawStroke(stroke)`: fewer than two points draws nothing unless there
is exactly one point, which draws a filled circle of radius
`lineWidth / 2`; two or more points draw the polyline. -/
def drawStrokeRender (s : Stroke) : StrokeRender :=
  if s.points.length < 2 then
    match s.points with
    | [p] => StrokeRender.dot p (s.lineWidth / 2)
    | _ => StrokeRender.nothing
  else StrokeRender.polyline s.points

/-! ## Reference semantics of stroke points (heap model)

In JavaScript the `{x, y}` point objects pushed by `Stroke.addPoint` live
on the heap; `stroke.points` is an array of references.  The history copy
`copy.points = [...stroke.points]` (`history.js` line 19) allocates a new
array holding the *same* references, and `moveAnnotation`'s stroke case
(`tool-manager.js` line 112) mutates each referenced object in place
(`p.x += dx; p.y += dy`).  This section models exactly that: a point heap
indexed by `Nat` identities, strokes holding identities, and the two
operations above. -/

/-- The heap of allocated point objects (index = object identity). -/
structure PtHeap where
  pts : List Point
deriving DecidableEq, Repr

/-- Dereference a point id (ids are always in range in the modelled
traces; a dangling id yields a dummy). -/
def PtHeap.getPt (h : PtHeap) (i : Nat) : Point :=
  (h.pts.get? i).getD ⟨0, 0⟩

/-- A stroke as stored in JavaScript: `points` is an array of
references. -/
structure HeapStroke where
  color : String
  lineWidth : ℚ
  points : List Nat
deriving DecidableEq, Repr

/-- The observable value of a heap stroke: every point dereferenced. -/
def derefStroke (h : PtHeap) (s : HeapStroke) : Stroke :=
  ⟨s.color, s.lineWidth, s.points.map h.getPt⟩

/-- The stroke clone of `saveToHistory`: `new Stroke(color, lineWidth)`
with `copy.points = [...stroke.points]` — a new array containing the same
point references. -/
def historyCopyStrokeH (s : HeapStroke) : HeapStroke :=
  ⟨s.color, s.lineWidth, s.points⟩

/-- The stroke case of `moveAnnotation`:
`annotation.points.forEach(p => { p.x += dx; p.y += dy; })` — an in-place
mutation of every referenced point object on the heap. -/
def moveStrokeH (hp : PtHeap) (s : HeapStroke) (dx dy : ℚ) : PtHeap :=
  s.points.foldl
    (fun h i => ⟨h.pts.set i ⟨(h.getPt i).x + dx, (h.getPt i).y + dy⟩⟩) hp

/-! ## Statement helpers: the two possible outcomes of a release

`commit⋆ s a` is the state `handleMouseUp` produces when the in-progress
annotation `a` crosses its threshold (pushed into its list, followed by
exactly one `saveToHistory`, in-progress pointer cleared); `abandon⋆ s` is
the state when it does not (no list change, no history entry). -/

/-- Over-threshold release outcome for the pen tool. -/
def commitPen (s : EditorState) (str : Stroke) : EditorState :=
  { (saveToHistory { s with
        isDrawing := false,
        scene := { s.scene with strokes := s.scene.strokes ++ [str] } }) with
    currentStroke := none }

/-- Sub-threshold release outcome for the pen tool. -/
def abandonPen (s : EditorState) : EditorState :=
  { s with isDrawing := false, currentStroke := none }

/-- Over-threshold release outcome for the arrow tool. -/
def commitArrow (s : EditorState) (a : Arrow) : EditorState :=
  { (saveToHistory { s with
        isDrawing := false,
        scene := { s.scene with arrows := s.scene.arrows ++ [a] } }) with
    currentArrow := none }

/-- Sub-threshold release outcome for the arrow tool. -/
def abandonArrow (s : EditorState) : EditorState :=
  { s with isDrawing := false, currentArrow := none }

/-- Over-threshold release outcome for the rectangle tool. -/
def commitRectangle (s : EditorState) (r : Rectangle) : EditorState :=
  { (saveToHistory { s with
        isDrawing := false,
        scene := { s.scene with rectangles := s.scene.rectangles ++ [r] } }) with
    currentRectangle := none }

/-- Sub-threshold release outcome for the rectangle tool. -/
def abandonRectangle (s : EditorState) : EditorState :=
  { s with isDrawing := false, currentRectangle := none }

/-- Over-threshold release outcome for the circle (ellipse) tool. -/
def commitEllipse (s : EditorState) (e : Ellipse) : EditorState :=
  { (saveToHistory { s with
        isDrawing := false,
        scene := { s.scene with ellipses := s.scene.ellipses ++ [e] } }) with
    currentEllipse := none }

/-- Sub-threshold release outcome for the circle (ellipse) tool. -/
def abandonEllipse (s : EditorState) : EditorState :=
  { s with isDrawing := false, currentEllipse := none }

/-- Over-threshold release outcome for the blur tool. -/
def commitBlur (s : EditorState) (b : BlurRegion) : EditorState :=
  { (saveToHistory { s with
        isDrawing := false,
        scene := { s.scene with blurs := s.scene.blurs ++ [b] } }) with
    currentBlur := none }

/-- Sub-threshold release outcome for the blur tool. -/
def abandonBlur (s : EditorState) : EditorState :=
  { s with isDrawing := false, currentBlur := none }

/-! ## Specification-side hit-test predicates

Used only to *state* the hit-testing claims: `maxHitIdx` says `i` is the
highest-index (last-drawn) hit within one list, `noHit` that no element of
the list is hit. -/

/-- `i` is a hit and no later (more recently drawn) index is. -/
def maxHitIdx {α : Type} (l : List α) (p : α → Bool) (i : Nat) : Prop :=
  i < l.length ∧ idxHit l p i = true ∧ ∀ j, i < j → j < l.length → idxHit l p j = false

/-- No element of the list is hit. -/
def noHit {α : Type} (l : List α) (p : α → Bool) : Prop :=
  ∀ i, i < l.length → idxHit l p i = false

/-! ## Concrete states for witnesses and counterexamples -/

/-- A trivial text metric (none of the concrete scenes below carry text). -/
def measureZero : String → ℚ := fun _ => 0

/-- User edits the DOM text input (sets `input.value`). -/
def typeInput (v : String) (s : EditorState) : EditorState :=
  { s with inputValue := v }

/-- `N` consecutive `saveToHistory()` calls, the scene free to change
between calls (`scenes` lists the scene current at each call). -/
def foldSave (scenes : List Scene) (s : EditorState) : EditorState :=
  scenes.foldl (fun st sc => saveToHistory { st with scene := sc }) s

/-- On-load state: `editor.js` `init` performs one `saveToHistory()` right
after the image loads. -/
def loadedState : EditorState := saveToHistory initialState

/-- C2 trace: rectangle tool selected, mouse down at (100,100). -/
def c2drag0 : EditorState :=
  handleMouseDown measureZero 100 100 (switchTool Tool.rectangle loadedState)

/-- C2 trace: preview callback applies the drag to (300,250). -/
def c2drag1 : EditorState := shapeRafCallback 300 250 c2drag0

/-- C2 trace: release commits the 200×150 rectangle (history save). -/
def c2drag2 : EditorState := handleMouseUp c2drag1

/-- C2 trace: back to the select tool. -/
def c2drag3 : EditorState := switchTool Tool.select c2drag2

/-- C2 trace: mouse down on the rectangle — selects it, enters move drag
mode and takes the drag-start history snapshot. -/
def c2drag4 : EditorState := handleMouseDown measureZero 150 150 c2drag3

/-- C2 trace: drag by (+5,+5) — the rectangle moves to (105,105) with no
further history write. -/
def c2drag5 : EditorState := handleSelectMouseMove 155 155 c2drag4

/-- C3 counterexample state: pen gesture in progress with one sampled
point (mouse down at (40,40), no move yet). -/
def c3state : EditorState :=
  handleMouseDown measureZero 40 40 (switchTool Tool.pen loadedState)

/-- C4 counterexample state: text entry open at (50,50) with `"hi"` typed
into the input. -/
def c4state : EditorState :=
  typeInput "hi" (showTextInput 50 50 (switchTool Tool.text loadedState))

/-- C6 witness state: arrow dragged 6px (start (100,100), end (106,100)). -/
def c6arrow6 : EditorState :=
  shapeRafCallback 106 100 (handleMouseDown measureZero 100 100 (switchTool Tool.arrow loadedState))

/-- C6 witness state: arrow dragged 4px (start (100,100), end (104,100)). -/
def c6arrow4 : EditorState :=
  shapeRafCallback 104 100 (handleMouseDown measureZero 100 100 (switchTool Tool.arrow loadedState))

/-- C7 witness scene: two parallel arrows, no other annotations. -/
def c7scene : Scene :=
  { Scene.empty with arrows :=
      [Arrow.mk 0 0 100 0 "#ef4444" 4, Arrow.mk 0 6 100 6 "#ef4444" 4] }

/-- C8 witness: an unfilled 4×3 rectangle (both dimensions below 10). -/
def c8rect : Rectangle := ⟨5, 5, 4, 3, "#ef4444", 1, false⟩

/-- C9 witness scene: one committed single-point stroke (a dot at (5,5)). -/
def c9scene : Scene :=
  { Scene.empty with strokes := [⟨"#ef4444", 4, [⟨5, 5⟩]⟩] }

/-- C9 witness: pen mouse-down at (5,5) (a click with no movement). -/
def c9penState : EditorState :=
  handleMouseDown measureZero 5 5 (switchTool Tool.pen loadedState)

/-- C1 failing input: the heap after allocating the two points of a live
stroke. -/
def c1heap : PtHeap := ⟨[⟨0, 0⟩, ⟨10, 10⟩]⟩

/-- C1 failing input: the live stroke, referencing both points. -/
def c1live : HeapStroke := ⟨"#ef4444", 4, [0, 1]⟩

/-- C1: the history entry's stroke copy made by `saveToHistory`. -/
def c1entry : HeapStroke := historyCopyStrokeH c1live

/-- C1: the heap after `moveAnnotation(liveStroke, 'stroke', 5, 5)`. -/
def c1heapMoved : PtHeap := moveStrokeH c1heap c1live 5 5

/-! ## Lemmas: the reverse search loop -/

theorem revFind_eq_some_iff (p : Nat → Bool) :
    ∀ n i, revFind p n = some i ↔ i < n ∧ p i = true ∧ ∀ j, i < j → j < n → p j = false := by
  intro n
  induction n with
  | zero => intro i; simp [revFind]
  | succ n ih =>
    intro i
    by_cases hp : p n = true
    · simp only [revFind, hp, if_pos]
      constructor
      · intro h
        cases h
        exact ⟨Nat.lt_succ_self n, hp, fun j h1 h2 => absurd (Nat.lt_of_lt_of_le h1 (Nat.le_of_lt_succ h2)) (lt_irrefl n)⟩
      · rintro ⟨hi, hpi, hmax⟩
        rcases Nat.lt_succ_iff_lt_or_eq.mp hi with hlt | heq
        · exact absurd (hmax n hlt (Nat.lt_succ_self n)) (by simp [hp])
        · rw [heq]
    · have hp' : p n = false := by
        cases h : p n
        · rfl
        · exact absurd h hp
      simp only [revFind, hp', if_neg, Bool.false_eq_true, not_false_eq_true]
      rw [ih i]
      constructor
      · rintro ⟨hi, hpi, hmax⟩
        refine ⟨Nat.lt_succ_of_lt hi, hpi, fun j h1 h2 => ?_⟩
        rcases Nat.lt_succ_iff_lt_or_eq.mp h2 with hlt | heq
        · exact hmax j h1 hlt
        · rw [heq]; exact hp'
      · rintro ⟨hi, hpi, hmax⟩
        have hin : i < n := by
          rcases Nat.lt_succ_iff_lt_or_eq.mp hi with hlt | heq
          · exact hlt
          · rw [heq] at hpi; rw [hpi] at hp'; cases hp'
        exact ⟨hin, hpi, fun j h1 h2 => hmax j h1 (Nat.lt_succ_of_lt h2)⟩

theorem revFind_eq_none_iff (p : Nat → Bool) :
    ∀ n, revFind p n = none ↔ ∀ i, i < n → p i = false := by
  intro n
  induction n with
  | zero => simp [revFind]
  | succ n ih =>
    by_cases hp : p n = true
    · simp only [revFind, hp, if_pos]
      constructor
      · intro h; cases h
      · intro h
        have := h n (Nat.lt_succ_self n)
        rw [hp] at this; cases this
    · have hp' : p n = false := by
        cases h : p n
        · rfl
        · exact absurd h hp
      simp only [revFind, hp', if_neg, Bool.false_eq_true, not_false_eq_true]
      rw [ih]
      constructor
      · intro h i hi
        rcases Nat.lt_succ_iff_lt_or_eq.mp hi with hlt | heq
        · exact h i hlt
        · rw [heq]; exact hp'
      · intro h i hi
        exact h i (Nat.lt_succ_of_lt hi)

theorem revFind_eq_some_iff_maxHitIdx {α : Type} (l : List α) (p : α → Bool) (i : Nat) :
    revFind (idxHit l p) l.length = some i ↔ maxHitIdx l p i := by
  rw [revFind_eq_some_iff]
  rfl

theorem revFind_eq_none_iff_noHit {α : Type} (l : List α) (p : α → Bool) :
    revFind (idxHit l p) l.length = none ↔ noHit l p := by
  rw [revFind_eq_none_iff]
  rfl

/-! ## Lemmas: unfolding the hit-test priority chain -/

theorem find_eq_text_iff (m : String → ℚ) (sc : Scene) (x y : ℚ) (i : Nat) :
    findAnnotationAtPoint m sc x y = some (Hit.text i) ↔
      revFind (idxHit sc.texts (textHitB m x y)) sc.texts.length = some i := by
  unfold findAnnotationAtPoint
  cases h1 : revFind (idxHit sc.texts (textHitB m x y)) sc.texts.length with
  | some j => simp
  | none =>
    simp only [Option.some.injEq]
    cases h2 : revFind (idxHit sc.ellipses (ellipseHitB x y)) sc.ellipses.length with
    | some j => simp
    | none =>
      cases h3 : revFind (idxHit sc.rectangles (rectHitB x y)) sc.rectangles.length with
      | some j => simp
      | none =>
        cases h4 : revFind (idxHit sc.arrows (arrowHitB x y)) sc.arrows.length with
        | some j => simp
        | none =>
          cases h5 : revFind (idxHit sc.strokes (strokeHitB x y)) sc.strokes.length with
          | some j => simp
          | none =>
            cases h6 : revFind (idxHit sc.blurs (blurHitB x y)) sc.blurs.length with
            | some j => simp
            | none => simp

theorem find_eq_ellipse_iff (m : String → ℚ) (sc : Scene) (x y : ℚ) (i : Nat) :
    findAnnotationAtPoint m sc x y = some (Hit.ellipse i) ↔
      revFind (idxHit sc.texts (textHitB m x y)) sc.texts.length = none ∧
      revFind (idxHit sc.ellipses (ellipseHitB x y)) sc.ellipses.length = some i := by
  unfold findAnnotationAtPoint
  cases h1 : revFind (idxHit sc.texts (textHitB m x y)) sc.texts.length with
  | some j => simp
  | none =>
    simp only [true_and]
    cases h2 : revFind (idxHit sc.ellipses (ellipseHitB x y)) sc.ellipses.length with
    | some j => simp
    | none =>
      cases h3 : revFind (idxHit sc.rectangles (rectHitB x y)) sc.rectangles.length with
      | some j => simp
      | none =>
        cases h4 : revFind (idxHit sc.arrows (arrowHitB x y)) sc.arrows.length with
        | some j => simp
        | none =>
          cases h5 : revFind (idxHit sc.strokes (strokeHitB x y)) sc.strokes.length with
          | some j => simp
          | none =>
            cases h6 : revFind (idxHit sc.blurs (blurHitB x y)) sc.blurs.length with
            | some j => simp
            | none => simp

theorem find_eq_rectangle_iff (m : String → ℚ) (sc : Scene) (x y : ℚ) (i : Nat) :
    findAnnotationAtPoint m sc x y = some (Hit.rectangle i) ↔
      revFind (idxHit sc.texts (textHitB m x y)) sc.texts.length = none ∧
      revFind (idxHit sc.ellipses (ellipseHitB x y)) sc.ellipses.length = none ∧
      revFind (idxHit sc.rectangles (rectHitB x y)) sc.rectangles.length = some i := by
  unfold findAnnotationAtPoint
  cases h1 : revFind (idxHit sc.texts (textHitB m x y)) sc.texts.length with
  | some j => simp
  | none =>
    simp only [true_and]
    cases h2 : revFind (idxHit sc.ellipses (ellipseHitB x y)) sc.ellipses.length with
    | some j => simp
    | none =>
      simp only [true_and]
      cases h3 : revFind (idxHit sc.rectangles (rectHitB x y)) sc.rectangles.length with
      | some j => simp
      | none =>
        cases h4 : revFind (idxHit sc.arrows (arrowHitB x y)) sc.arrows.length with
        | some j => simp
        | none =>
          cases h5 : revFind (idxHit sc.strokes (strokeHitB x y)) sc.strokes.length with
          | some j => simp
          | none =>
            cases h6 : revFind (idxHit sc.blurs (blurHitB x y)) sc.blurs.length with
            | some j => simp
            | none => simp

theorem find_eq_arrow_iff (m : String → ℚ) (sc : Scene) (x y : ℚ) (i : Nat) :
    findAnnotationAtPoint m sc x y = some (Hit.arrow i) ↔
      revFind (idxHit sc.texts (textHitB m x y)) sc.texts.length = none ∧
      revFind (idxHit sc.ellipses (ellipseHitB x y)) sc.ellipses.length = none ∧
      revFind (idxHit sc.rectangles (rectHitB x y)) sc.rectangles.length = none ∧
      revFind (idxHit sc.arrows (arrowHitB x y)) sc.arrows.length = some i := by
  unfold findAnnotationAtPoint
  cases h1 : revFind (idxHit sc.texts (textHitB m x y)) sc.texts.length with
  | some j => simp
  | none =>
    simp only [true_and]
    cases h2 : revFind (idxHit sc.ellipses (ellipseHitB x y)) sc.ellipses.length with
    | some j => simp
    | none =>
      simp only [true_and]
      cases h3 : revFind (idxHit sc.rectangles (rectHitB x y)) sc.rectangles.length with
      | some j => simp
      | none =>
        simp only [true_and]
        cases h4 : revFind (idxHit sc.arrows (arrowHitB x y)) sc.arrows.length with
        | some j => simp
        | none =>
          cases h5 : revFind (idxHit sc.strokes (strokeHitB x y)) sc.strokes.length with
          | some j => simp
          | none =>
            cases h6 : revFind (idxHit sc.blurs (blurHitB x y)) sc.blurs.length with
            | some j => simp
            | none => simp

theorem find_eq_stroke_iff (m : String → ℚ) (sc : Scene) (x y : ℚ) (i : Nat) :
    findAnnotationAtPoint m sc x y = some (Hit.stroke i) ↔
      revFind (idxHit sc.texts (textHitB m x y)) sc.texts.length = none ∧
      revFind (idxHit sc.ellipses (ellipseHitB x y)) sc.ellipses.length = none ∧
      revFind (idxHit sc.rectangles (rectHitB x y)) sc.rectangles.length = none ∧
      revFind (idxHit sc.arrows (arrowHitB x y)) sc.arrows.length = none ∧
      revFind (idxHit sc.strokes (strokeHitB x y)) sc.strokes.length = some i := by
  unfold findAnnotationAtPoint
  cases h1 : revFind (idxHit sc.texts (textHitB m x y)) sc.texts.length with
  | some j => simp
  | none =>
    simp only [true_and]
    cases h2 : revFind (idxHit sc.ellipses (ellipseHitB x y)) sc.ellipses.length with
    | some j => simp
    | none =>
      simp only [true_and]
      cases h3 : revFind (idxHit sc.rectangles (rectHitB x y)) sc.rectangles.length with
      | some j => simp
      | none =>
        simp only [true_and]
        cases h4 : revFind (idxHit sc.arrows (arrowHitB x y)) sc.arrows.length with
        | some j => simp
        | none =>
          simp only [true_and]
          cases h5 : revFind (idxHit sc.strokes (strokeHitB x y)) sc.strokes.length with
          | some j => simp
          | none =>
            cases h6 : revFind (idxHit sc.blurs (blurHitB x y)) sc.blurs.length with
            | some j => simp
            | none => simp

theorem find_eq_blur_iff (m : String → ℚ) (sc : Scene) (x y : ℚ) (i : Nat) :
    findAnnotationAtPoint m sc x y = some (Hit.blur i) ↔
      revFind (idxHit sc.texts (textHitB m x y)) sc.texts.length = none ∧
      revFind (idxHit sc.ellipses (ellipseHitB x y)) sc.ellipses.length = none ∧
      revFind (idxHit sc.rectangles (rectHitB x y)) sc.rectangles.length = none ∧
      revFind (idxHit sc.arrows (arrowHitB x y)) sc.arrows.length = none ∧
      revFind (idxHit sc.strokes (strokeHitB x y)) sc.strokes.length = none ∧
      revFind (idxHit sc.blurs (blurHitB x y)) sc.blurs.length = some i := by
  unfold findAnnotationAtPoint
  cases h1 : revFind (idxHit sc.texts (textHitB m x y)) sc.texts.length with
  | some j => simp
  | none =>
    simp only [true_and]
    cases h2 : revFind (idxHit sc.ellipses (ellipseHitB x y)) sc.ellipses.length with
    | some j => simp
    | none =>
      simp only [true_and]
      cases h3 : revFind (idxHit sc.rectangles (rectHitB x y)) sc.rectangles.length with
      | some j => simp
      | none =>
        simp only [true_and]
        cases h4 : revFind (idxHit sc.arrows (arrowHitB x y)) sc.arrows.length with
        | some j => simp
        | none =>
          simp only [true_and]
          cases h5 : revFind (idxHit sc.strokes (strokeHitB x y)) sc.strokes.length with
          | some j => simp
          | none =>
            simp only [true_and]
            cases h6 : revFind (idxHit sc.blurs (blurHitB x y)) sc.blurs.length with
            | some j => simp
            | none => simp

theorem find_eq_none_iff (m : String → ℚ) (sc : Scene) (x y : ℚ) :
    findAnnotationAtPoint m sc x y = none ↔
      revFind (idxHit sc.texts (textHitB m x y)) sc.texts.length = none ∧
      revFind (idxHit sc.ellipses (ellipseHitB x y)) sc.ellipses.length = none ∧
      revFind (idxHit sc.rectangles (rectHitB x y)) sc.rectangles.length = none ∧
      revFind (idxHit sc.arrows (arrowHitB x y)) sc.arrows.length = none ∧
      revFind (idxHit sc.strokes (strokeHitB x y)) sc.strokes.length = none ∧
      revFind (idxHit sc.blurs (blurHitB x y)) sc.blurs.length = none := by
  unfold findAnnotationAtPoint
  cases h1 : revFind (idxHit sc.texts (textHitB m x y)) sc.texts.length with
  | some j => simp
  | none =>
    simp only [true_and]
    cases h2 : revFind (idxHit sc.ellipses (ellipseHitB x y)) sc.ellipses.length with
    | some j => simp
    | none =>
      simp only [true_and]
      cases h3 : revFind (idxHit sc.rectangles (rectHitB x y)) sc.rectangles.length with
      | some j => simp
      | none =>
        simp only [true_and]
        cases h4 : revFind (idxHit sc.arrows (arrowHitB x y)) sc.arrows.length with
        | some j => simp
        | none =>
          simp only [true_and]
          cases h5 : revFind (idxHit sc.strokes (strokeHitB x y)) sc.strokes.length with
          | some j => simp
          | none =>
            simp only [true_and]
            cases h6 : revFind (idxHit sc.blurs (blurHitB x y)) sc.blurs.length with
            | some j => simp
            | none => simp

/-- C7: `findAnnotationAtPoint(x,y)` searches in the fixed type-priority
order text, ellipse, rectangle (bounding-box containment), then arrow,
then stroke (segment distance under the 10px tolerance), then pixelation
region last; within each type it tests from the last-drawn annotation
backward, so the highest-index hit of the first hit-bearing type is
returned; in particular a point within tolerance of an arrow but outside
every text/ellipse/rectangle bounds returns that arrow. -/
theorem findAnnotationAtPoint_priority (m : String → ℚ) (sc : Scene) (x y : ℚ) :
    (∀ i, findAnnotationAtPoint m sc x y = some (Hit.text i) ↔
       maxHitIdx sc.texts (textHitB m x y) i)
  ∧ (∀ i, findAnnotationAtPoint m sc x y = some (Hit.ellipse i) ↔
       noHit sc.texts (textHitB m x y) ∧ maxHitIdx sc.ellipses (ellipseHitB x y) i)
  ∧ (∀ i, findAnnotationAtPoint m sc x y = some (Hit.rectangle i) ↔
       noHit sc.texts (textHitB m x y) ∧ noHit sc.ellipses (ellipseHitB x y) ∧
       maxHitIdx sc.rectangles (rectHitB x y) i)
  ∧ (∀ i, findAnnotationAtPoint m sc x y = some (Hit.arrow i) ↔
       noHit sc.texts (textHitB m x y) ∧ noHit sc.ellipses (ellipseHitB x y) ∧
       noHit sc.rectangles (rectHitB x y) ∧ maxHitIdx sc.arrows (arrowHitB x y) i)
  ∧ (∀ i, findAnnotationAtPoint m sc x y = some (Hit.stroke i) ↔
       noHit sc.texts (textHitB m x y) ∧ noHit sc.ellipses (ellipseHitB x y) ∧
       noHit sc.rectangles (rectHitB x y) ∧ noHit sc.arrows (arrowHitB x y) ∧
       maxHitIdx sc.strokes (strokeHitB x y) i)
  ∧ (∀ i, findAnnotationAtPoint m sc x y = some (Hit.blur i) ↔
       noHit sc.texts (textHitB m x y) ∧ noHit sc.ellipses (ellipseHitB x y) ∧
       noHit sc.rectangles (rectHitB x y) ∧ noHit sc.arrows (arrowHitB x y) ∧
       noHit sc.strokes (strokeHitB x y) ∧ maxHitIdx sc.blurs (blurHitB x y) i)
  ∧ (findAnnotationAtPoint m sc x y = none ↔
       noHit sc.texts (textHitB m x y) ∧ noHit sc.ellipses (ellipseHitB x y) ∧
       noHit sc.rectangles (rectHitB x y) ∧ noHit sc.arrows (arrowHitB x y) ∧
       noHit sc.strokes (strokeHitB x y) ∧ noHit sc.blurs (blurHitB x y)) := by
  refine ⟨fun i => ?_, fun i => ?_, fun i => ?_, fun i => ?_, fun i => ?_, fun i => ?_, ?_⟩
  · rw [find_eq_text_iff, revFind_eq_some_iff_maxHitIdx]
  · rw [find_eq_ellipse_iff, revFind_eq_none_iff_noHit, revFind_eq_some_iff_maxHitIdx]
  · rw [find_eq_rectangle_iff, revFind_eq_none_iff_noHit, revFind_eq_none_iff_noHit,
      revFind_eq_some_iff_maxHitIdx]
  · rw [find_eq_arrow_iff, revFind_eq_none_iff_noHit, revFind_eq_none_iff_noHit,
      revFind_eq_none_iff_noHit, revFind_eq_some_iff_maxHitIdx]
  · rw [find_eq_stroke_iff, revFind_eq_none_iff_noHit, revFind_eq_none_iff_noHit,
      revFind_eq_none_iff_noHit, revFind_eq_none_iff_noHit, revFind_eq_some_iff_maxHitIdx]
  · rw [find_eq_blur_iff, revFind_eq_none_iff_noHit, revFind_eq_none_iff_noHit,
      revFind_eq_none_iff_noHit, revFind_eq_none_iff_noHit, revFind_eq_none_iff_noHit,
      revFind_eq_some_iff_maxHitIdx]
  · rw [find_eq_none_iff, revFind_eq_none_iff_noHit, revFind_eq_none_iff_noHit,
      revFind_eq_none_iff_noHit, revFind_eq_none_iff_noHit, revFind_eq_none_iff_noHit,
      revFind_eq_none_iff_noHit]

unseal Rat.mul Rat.add Rat.sub Rat.inv in
/-- C7 witness: in a scene with two parallel horizontal arrows (index 0 at
y=0 and index 1 at y=6, both within 10px of the query point (50,3)) and
nothing else, the hit test returns the later-drawn arrow (index 1). -/
theorem findAnnotationAtPoint_priority_witness :
    findAnnotationAtPoint measureZero c7scene 50 3 = some (Hit.arrow 1) := by
  refine ((findAnnotationAtPoint_priority measureZero c7scene 50 3).2.2.2.1 1).mpr
    ⟨?_, ?_, ?_, ?_, ?_, ?_⟩
  · intro i hi
    simp [c7scene, Scene.empty] at hi
  · intro i hi
    simp [c7scene, Scene.empty] at hi
  · intro i hi
    simp [c7scene, Scene.empty] at hi
  · decide
  · decide
  · intro j h1 h2
    simp [c7scene, Scene.empty] at h2
    omega

/-! ## Lemmas: history mechanics -/

theorem foldSave_nil (s : EditorState) : foldSave [] s = s := rfl

theorem foldSave_cons (sc : Scene) (rest : List Scene) (s : EditorState) :
    foldSave (sc :: rest) s = foldSave rest (saveToHistory { s with scene := sc }) := rfl

theorem foldSave_concat (l : List Scene) (sc : Scene) (s : EditorState) :
    foldSave (l ++ [sc]) s = saveToHistory { foldSave l s with scene := sc } := by
  simp [foldSave, List.foldl_append]

theorem saveToHistory_push (s : EditorState)
    (h1 : s.historyIndex = (s.history.length : ℤ) - 1)
    (h2 : s.history.length + 1 ≤ maxEntries) :
    (saveToHistory s).history = s.history ++ [snapshotScene s.scene] ∧
    (saveToHistory s).historyIndex = (s.history.length : ℤ) := by
  have htr : ¬ (s.historyIndex < (s.history.length : ℤ) - 1) := by omega
  have hcap : ¬ (maxEntries < (s.history ++ [snapshotScene s.scene]).length) := by
    simp only [List.length_append, List.length_cons, List.length_nil]
    omega
  constructor
  · simp only [saveToHistory, htr, if_false, hcap]
  · simp only [saveToHistory, htr, if_false, hcap]
    simp only [List.length_append, List.length_cons, List.length_nil]
    push_cast
    ring

theorem saveToHistory_evict (s : EditorState)
    (h1 : s.historyIndex = (s.history.length : ℤ) - 1)
    (h2 : s.history.length = maxEntries) :
    (saveToHistory s).history = (s.history ++ [snapshotScene s.scene]).tail ∧
    (saveToHistory s).historyIndex = (maxEntries : ℤ) - 1 := by
  have htr : ¬ (s.historyIndex < (s.history.length : ℤ) - 1) := by omega
  have hcap : maxEntries < (s.history ++ [snapshotScene s.scene]).length := by
    simp only [List.length_append, List.length_cons, List.length_nil]
    omega
  constructor
  · simp only [saveToHistory, htr, if_false, hcap, if_true]
  · simp only [saveToHistory, htr, if_false, hcap, if_true]
    simp only [List.length_append, List.length_cons, List.length_nil, h2]
    push_cast
    ring

theorem foldSave_inv (scenes : List Scene) : ∀ (s : EditorState),
    s.historyIndex = (s.history.length : ℤ) - 1 →
    s.history.length + scenes.length ≤ maxEntries →
    (foldSave scenes s).history = s.history ++ scenes.map snapshotScene ∧
    (foldSave scenes s).historyIndex = ((s.history.length + scenes.length : ℕ) : ℤ) - 1 := by
  induction scenes with
  | nil =>
    intro s h1 h2
    simp [foldSave_nil, h1]
  | cons sc rest ih =>
    intro s h1 h2
    rw [foldSave_cons]
    have hpush := saveToHistory_push { s with scene := sc }
      (by simpa using h1)
      (by simp only [List.length_cons] at h2; simpa using by omega)
    have hlen : (saveToHistory { s with scene := sc }).history.length
        = s.history.length + 1 := by
      rw [hpush.1]
      simp
    have hrec := ih (saveToHistory { s with scene := sc })
      (by rw [hpush.2, hlen]; push_cast; ring)
      (by rw [hlen]; simp only [List.length_cons] at h2; omega)
    rcases hrec with ⟨ha, hb⟩
    constructor
    · rw [ha, hpush.1]
      simp
    · rw [hb, hlen]
      simp only [List.length_cons]
      push_cast
      ring

theorem setScene_history (s : EditorState) (sc : Scene) :
    ({ s with scene := sc } : EditorState).history = s.history := rfl

theorem setScene_historyIndex (s : EditorState) (sc : Scene) :
    ({ s with scene := sc } : EditorState).historyIndex = s.historyIndex := rfl

theorem setScene_scene (s : EditorState) (sc : Scene) :
    ({ s with scene := sc } : EditorState).scene = sc := rfl

/-- C5: starting from an empty history, after `N ≤ 20` consecutive
`saveToHistory()` calls (with arbitrary scene contents at each call) the
history holds exactly the `N` snapshots in order and `historyIndex = N-1`;
a 21st call leaves exactly 20 entries — the snapshot list with its oldest
entry dropped, the 21st snapshot newest — and `historyIndex = 19`. -/
theorem saveToHistory_cap (s0 : EditorState) (hh : s0.history = [])
    (hi : s0.historyIndex = -1) (scenes : List Scene) :
    (scenes.length ≤ 20 →
      (foldSave scenes s0).history = scenes.map snapshotScene ∧
      (foldSave scenes s0).historyIndex = (scenes.length : ℤ) - 1)
  ∧ (scenes.length = 21 →
      (foldSave scenes s0).history = (scenes.map snapshotScene).tail ∧
      (foldSave scenes s0).history.length = 20 ∧
      (foldSave scenes s0).historyIndex = 19) := by
  have hbase : s0.historyIndex = (s0.history.length : ℤ) - 1 := by
    rw [hh, hi]; norm_num
  constructor
  · intro hle
    have h := foldSave_inv scenes s0 hbase
      (by rw [hh]; simp only [List.length_nil, maxEntries]; omega)
    rw [hh] at h
    rcases h with ⟨ha, hb⟩
    refine ⟨by simpa using ha, ?_⟩
    rw [hb]
    norm_num
  · intro h21
    rcases List.eq_nil_or_concat scenes with hnil | ⟨l, sc, rfl⟩
    · rw [hnil] at h21; simp at h21
    · simp only [List.concat_eq_append] at h21 ⊢
      have hl : l.length = 20 := by
        simp only [List.length_append, List.length_cons, List.length_nil] at h21
        omega
      have h20 := foldSave_inv l s0 hbase
        (by rw [hh, hl]; simp only [List.length_nil, maxEntries]; omega)
      rw [hh] at h20
      rcases h20 with ⟨ha, hb⟩
      simp only [List.nil_append, List.length_nil, Nat.zero_add] at ha hb
      have hidx : (foldSave l s0).historyIndex = 19 := by
        rw [hb, hl]; norm_num
      have hlen20 : (foldSave l s0).history.length = 20 := by
        rw [ha, List.length_map, hl]
      have hev := saveToHistory_evict { foldSave l s0 with scene := sc }
        (by rw [setScene_historyIndex, setScene_history, hidx, hlen20]; norm_num)
        (by rw [setScene_history, hlen20, maxEntries])
      rw [foldSave_concat]
      rw [setScene_history, setScene_scene] at hev
      refine ⟨?_, ?_, ?_⟩
      · rw [hev.1, ha, List.map_append]
        rfl
      · rw [hev.1, ha]
        simp [hl]
      · rw [hev.2, maxEntries]
        norm_num

/-- C5 witness: 21 saves of the empty scene from the initial state leave
20 entries (the oldest dropped), `historyIndex = 19`. -/
theorem saveToHistory_cap_witness :
    (foldSave (List.replicate 21 Scene.empty) initialState).history =
      ((List.replicate 21 Scene.empty).map snapshotScene).tail ∧
    (foldSave (List.replicate 21 Scene.empty) initialState).history.length = 20 ∧
    (foldSave (List.replicate 21 Scene.empty) initialState).historyIndex = 19 :=
  (saveToHistory_cap initialState rfl rfl (List.replicate 21 Scene.empty)).2 (by simp)

/-! ## Lemmas: undo / redo -/

theorem clearSelection_scene (s : EditorState) : (clearSelection s).scene = s.scene := rfl

theorem clearSelection_history (s : EditorState) :
    (clearSelection s).history = s.history := rfl

theorem clearSelection_historyIndex (s : EditorState) :
    (clearSelection s).historyIndex = s.historyIndex := rfl

theorem restoreFromHistory_eq (s : EditorState) :
    restoreFromHistory s =
      match s.history.get? s.historyIndex.toNat with
      | some entry => { clearSelection s with scene := restoreScene entry }
      | none => clearSelection s := rfl

theorem restoreFromHistory_components (s : EditorState) (e : Scene)
    (hg : s.history.get? s.historyIndex.toNat = some e) :
    (restoreFromHistory s).scene = restoreScene e ∧
    (restoreFromHistory s).history = s.history ∧
    (restoreFromHistory s).historyIndex = s.historyIndex := by
  rw [restoreFromHistory_eq, hg]
  exact ⟨rfl, rfl, rfl⟩

theorem undo_of_pos (s : EditorState) (h1 : 0 < s.historyIndex) :
    undo s = restoreFromHistory { s with historyIndex := s.historyIndex - 1 } := by
  unfold undo
  rw [if_pos h1]

theorem redo_of_lt (s : EditorState) (h1 : s.historyIndex < (s.history.length : ℤ) - 1) :
    redo s = restoreFromHistory { s with historyIndex := s.historyIndex + 1 } := by
  unfold redo
  rw [if_pos h1]

/-- C2 (amended): `undo()` then `redo()` restores the annotation lists as
they were just before the undo *provided* the live lists are structurally
equal to the entry at `historyIndex` — i.e. no in-place mutation has
happened since the last history write.  After a move/resize drag gesture
this proviso fails: the snapshot is taken at drag start and the mutation
happens afterwards, so redo lands on the drag-start snapshot instead (see
the counterexample). -/
theorem undo_redo_restores (s : EditorState)
    (h1 : 0 < s.historyIndex)
    (h2 : s.historyIndex < (s.history.length : ℤ))
    (h3 : (s.history.get? s.historyIndex.toNat).map restoreScene = some s.scene) :
    (redo (undo s)).scene = s.scene ∧ (redo (undo s)).historyIndex = s.historyIndex := by
  obtain ⟨e, he, hes⟩ : ∃ e, s.history.get? s.historyIndex.toNat = some e ∧
      restoreScene e = s.scene := by
    cases hg : s.history.get? s.historyIndex.toNat with
    | none => rw [hg] at h3; simp at h3
    | some e =>
      rw [hg] at h3
      simp only [Option.map_some', Option.some.injEq] at h3
      exact ⟨e, rfl, h3⟩
  obtain ⟨e1, he1⟩ : ∃ e1, s.history.get? (s.historyIndex - 1).toNat = some e1 := by
    cases hg : s.history.get? (s.historyIndex - 1).toNat with
    | none =>
      rw [List.get?_eq_none] at hg
      omega
    | some e1 => exact ⟨e1, rfl⟩
  set s1 : EditorState := { s with historyIndex := s.historyIndex - 1 } with hs1
  have hu : undo s = restoreFromHistory s1 := undo_of_pos s h1
  have hs1g : s1.history.get? s1.historyIndex.toNat = some e1 := he1
  have hcomp := restoreFromHistory_components s1 e1 hs1g
  have huhist : (undo s).history = s.history := by rw [hu]; exact hcomp.2.1
  have huidx : (undo s).historyIndex = s.historyIndex - 1 := by rw [hu]; exact hcomp.2.2
  have hredo : redo (undo s) =
      restoreFromHistory { undo s with historyIndex := (undo s).historyIndex + 1 } := by
    apply redo_of_lt
    rw [huhist, huidx]
    omega
  set s2 : EditorState := { undo s with historyIndex := (undo s).historyIndex + 1 } with hs2
  have hs2g : s2.history.get? s2.historyIndex.toNat = some e := by
    show (undo s).history.get? ((undo s).historyIndex + 1).toNat = some e
    rw [huhist, huidx]
    have : (s.historyIndex - 1 + 1) = s.historyIndex := by omega
    rw [this]
    exact he
  have hcomp2 := restoreFromHistory_components s2 e hs2g
  constructor
  · rw [hredo, hcomp2.1, hes]
  · rw [hredo, hcomp2.2.2]
    show (undo s).historyIndex + 1 = s.historyIndex
    rw [huidx]
    omega

unseal Rat.mul Rat.add Rat.sub Rat.inv in
/-- C2 witness: in the concrete trace state just after selecting the
rectangle (history `[empty, rect, rect]`, index 2, live lists equal to the
newest entry), undo then redo restores the scene and the index. -/
theorem undo_redo_restores_witness :
    (redo (undo c2drag4)).scene = c2drag4.scene ∧
    (redo (undo c2drag4)).historyIndex = c2drag4.historyIndex :=
  undo_redo_restores c2drag4 (by decide) (by decide) (by decide)

unseal Rat.mul Rat.add Rat.sub Rat.inv in
/-- C2 counterexample: in the reachable state `c2drag5` (a rectangle
committed at (100,100), then selected — taking the drag-start snapshot —
and dragged to (105,105)), undo is enabled but undo-then-redo yields the
drag-start rectangle (100,100), not the pre-undo rectangle (105,105): the
claim fails after a move drag. -/
theorem undo_redo_after_drag_cex :
    0 < c2drag5.historyIndex ∧
    c2drag5.scene.rectangles = [Rectangle.mk 105 105 200 150 "#ef4444" 4 false] ∧
    (redo (undo c2drag5)).scene.rectangles =
      [Rectangle.mk 100 100 200 150 "#ef4444" 4 false] ∧
    (redo (undo c2drag5)).scene ≠ c2drag5.scene := by decide

/-! ## Lemmas: release-commit behaviour -/

theorem handleMouseUp_commit_spec (s : EditorState) (hdraw : s.isDrawing = true) :
    (∀ str, s.currentTool = Tool.pen → s.currentStroke = some str →
      handleMouseUp s = if 0 < str.points.length then commitPen s str else abandonPen s)
  ∧ (∀ a, s.currentTool = Tool.arrow → s.currentArrow = some a →
      handleMouseUp s = if minArrowLength ^ 2 <
          (a.endX - a.startX) * (a.endX - a.startX) + (a.endY - a.startY) * (a.endY - a.startY)
        then commitArrow s a else abandonArrow s)
  ∧ (∀ r, s.currentTool = Tool.rectangle → s.currentRectangle = some r →
      handleMouseUp s = if minShapeSize < |r.width| + |r.height|
        then commitRectangle s r else abandonRectangle s)
  ∧ (∀ e, s.currentTool = Tool.circle → s.currentEllipse = some e →
      handleMouseUp s = if minArrowLength < e.radiusX + e.radiusY
        then commitEllipse s e else abandonEllipse s)
  ∧ (∀ b, s.currentTool = Tool.blur → s.currentBlur = some b →
      handleMouseUp s = if minShapeSize < |b.width| + |b.height|
        then commitBlur s b else abandonBlur s) := by
  refine ⟨fun str ht hc => ?_, fun a ht hc => ?_, fun r ht hc => ?_,
    fun e ht hc => ?_, fun b ht hc => ?_⟩ <;>
  · simp only [handleMouseUp, ht, hdraw, hc, commitPen, abandonPen, commitArrow, abandonArrow,
      commitRectangle, abandonRectangle, commitEllipse, abandonEllipse, commitBlur, abandonBlur,
      reduceCtorEq, if_false, Bool.true_eq_false, if_true, reduceIte]
    first
    | rfl
    | (split <;> rfl)

/-- C6: on release, the in-progress annotation is committed to its list
with exactly one history save iff it crosses its commit threshold — stroke
with at least one point, arrow with length² > 5², rectangle and pixelation
with `|width|+|height| > 10`, ellipse with `radiusX+radiusY > 5`;
sub-threshold gestures change no list and write no history entry. -/
theorem handleMouseUp_threshold (s : EditorState) (hdraw : s.isDrawing = true) :
    (∀ str, s.currentTool = Tool.pen → s.currentStroke = some str →
      handleMouseUp s = if 0 < str.points.length then commitPen s str else abandonPen s)
  ∧ (∀ a, s.currentTool = Tool.arrow → s.currentArrow = some a →
      handleMouseUp s = if minArrowLength ^ 2 <
          (a.endX - a.startX) * (a.endX - a.startX) + (a.endY - a.startY) * (a.endY - a.startY)
        then commitArrow s a else abandonArrow s)
  ∧ (∀ r, s.currentTool = Tool.rectangle → s.currentRectangle = some r →
      handleMouseUp s = if minShapeSize < |r.width| + |r.height|
        then commitRectangle s r else abandonRectangle s)
  ∧ (∀ e, s.currentTool = Tool.circle → s.currentEllipse = some e →
      handleMouseUp s = if minArrowLength < e.radiusX + e.radiusY
        then commitEllipse s e else abandonEllipse s)
  ∧ (∀ b, s.currentTool = Tool.blur → s.currentBlur = some b →
      handleMouseUp s = if minShapeSize < |b.width| + |b.height|
        then commitBlur s b else abandonBlur s) :=
  handleMouseUp_commit_spec s hdraw

unseal Rat.mul Rat.add Rat.sub Rat.inv in
/-- C6 witness: an arrow dragged 6px (36 > 25) is committed with a history
save; one dragged 4px (16 ≤ 25) is silently discarded. -/
theorem handleMouseUp_threshold_witness :
    handleMouseUp c6arrow6 = commitArrow c6arrow6 (Arrow.mk 100 100 106 100 "#ef4444" 4) ∧
    handleMouseUp c6arrow4 = abandonArrow c6arrow4 := by
  constructor
  · have h := (handleMouseUp_threshold c6arrow6 (by decide)).2.1
      (Arrow.mk 100 100 106 100 "#ef4444" 4) (by decide) (by decide)
    rw [h, if_pos (by decide)]
  · have h := (handleMouseUp_threshold c6arrow4 (by decide)).2.1
      (Arrow.mk 100 100 104 100 "#ef4444" 4) (by decide) (by decide)
    rw [h, if_neg (by decide)]

/-- C3 (amended): `editor.js` wires `mouseleave` to the very same handler
as `mouseup`, so a drawing gesture interrupted by the pointer leaving the
surface is *not* abandoned: it ends exactly like a release — the
in-progress annotation is committed to its list with one history save iff
it crosses its commit threshold, and only sub-threshold gestures are
discarded. -/
theorem handleMouseLeave_commits (s : EditorState) (hdraw : s.isDrawing = true) :
    (∀ str, s.currentTool = Tool.pen → s.currentStroke = some str →
      handleMouseLeave s = if 0 < str.points.length then commitPen s str else abandonPen s)
  ∧ (∀ a, s.currentTool = Tool.arrow → s.currentArrow = some a →
      handleMouseLeave s = if minArrowLength ^ 2 <
          (a.endX - a.startX) * (a.endX - a.startX) + (a.endY - a.startY) * (a.endY - a.startY)
        then commitArrow s a else abandonArrow s)
  ∧ (∀ r, s.currentTool = Tool.rectangle → s.currentRectangle = some r →
      handleMouseLeave s = if minShapeSize < |r.width| + |r.height|
        then commitRectangle s r else abandonRectangle s)
  ∧ (∀ e, s.currentTool = Tool.circle → s.currentEllipse = some e →
      handleMouseLeave s = if minArrowLength < e.radiusX + e.radiusY
        then commitEllipse s e else abandonEllipse s)
  ∧ (∀ b, s.currentTool = Tool.blur → s.currentBlur = some b →
      handleMouseLeave s = if minShapeSize < |b.width| + |b.height|
        then commitBlur s b else abandonBlur s) :=
  handleMouseUp_commit_spec s hdraw

unseal Rat.mul Rat.add Rat.sub Rat.inv in
/-- C3 witness: a pen gesture with one sampled point, interrupted by the
pointer leaving the surface, is committed (it crossed the pen threshold of
at least one point). -/
theorem handleMouseLeave_commits_witness :
    handleMouseLeave c3state = commitPen c3state (Stroke.mk "#ef4444" 4 [Point.mk 40 40]) := by
  have h := (handleMouseLeave_commits c3state (by decide)).1
    (Stroke.mk "#ef4444" 4 [Point.mk 40 40]) (by decide) (by decide)
  rw [h, if_pos (by decide)]

unseal Rat.mul Rat.add Rat.sub Rat.inv in
/-- C3 counterexample: the claim says an interrupted in-progress gesture is
never pushed and creates no history entry, regardless of size; but in the
concrete drawing state `c3state` (pen, one point) the `mouseleave` handler
pushes the stroke and writes a history entry. -/
theorem handleMouseLeave_abandons_cex :
    c3state.isDrawing = true ∧
    c3state.currentStroke = some (Stroke.mk "#ef4444" 4 [Point.mk 40 40]) ∧
    c3state.scene.strokes = [] ∧
    (handleMouseLeave c3state).scene.strokes = [Stroke.mk "#ef4444" 4 [Point.mk 40 40]] ∧
    (handleMouseLeave c3state).history.length = c3state.history.length + 1 := by decide

/-! ## Lemmas: text-entry state -/

theorem saveToHistory_scene (s : EditorState) : (saveToHistory s).scene = s.scene := by
  unfold saveToHistory
  split <;> (dsimp only; split <;> rfl)

theorem closeOverlay_scene (u : EditorState) :
    ({ u with isEditingText := false, pendingText := none, inputValue := "" }
      : EditorState).scene = u.scene := rfl

theorem switchTool_eq (t : Tool) (s : EditorState) :
    switchTool t s =
      { (if ((if s.isEditingText then cancelTextInput s else s).currentTool = Tool.select
            ∧ t ≠ Tool.select)
          then clearSelection (if s.isEditingText then cancelTextInput s else s)
          else (if s.isEditingText then cancelTextInput s else s)) with currentTool := t } := rfl

/-- C4 (amended): switching tools while the inline text entry is open
*cancels* it (`cancelTextInput`): the scene and history are untouched no
matter what text was entered, editing mode ends and the new tool becomes
current.  A commit happens only through `confirmTextInput` (Enter or the
blur timeout), which appends a `Text` annotation followed by one history
save iff the trimmed input is non-empty and a pending position exists, and
otherwise mutates neither scene nor history. -/
theorem switchTool_cancels_text (s : EditorState) (t : Tool) (hedit : s.isEditingText = true) :
    ((switchTool t s).scene = s.scene ∧
     (switchTool t s).history = s.history ∧
     (switchTool t s).historyIndex = s.historyIndex ∧
     (switchTool t s).isEditingText = false ∧
     (switchTool t s).currentTool = t)
  ∧ (∀ p, s.pendingText = some p → jsTrim s.inputValue ≠ "" →
      (confirmTextInput s).scene.texts = s.scene.texts ++
        [TextAnn.mk p.x p.y (jsTrim s.inputValue) p.fontSize p.color])
  ∧ (jsTrim s.inputValue = "" →
      (confirmTextInput s).scene = s.scene ∧ (confirmTextInput s).history = s.history) := by
  refine ⟨?_, fun p hp hne => ?_, fun hemp => ?_⟩
  · rw [switchTool_eq, hedit]
    simp only [if_true]
    by_cases hcond : (cancelTextInput s).currentTool = Tool.select ∧ t ≠ Tool.select
    · rw [if_pos hcond]
      exact ⟨rfl, rfl, rfl, rfl, trivial⟩
    · rw [if_neg hcond]
      exact ⟨rfl, rfl, rfl, rfl, trivial⟩
  · unfold confirmTextInput
    rw [hp]
    dsimp only
    rw [if_pos hne]
    rw [closeOverlay_scene, saveToHistory_scene]
  · unfold confirmTextInput
    cases hp : s.pendingText with
    | none => exact ⟨rfl, rfl⟩
    | some p =>
      dsimp only
      rw [if_neg (by simp [hemp])]
      exact ⟨rfl, rfl⟩

unseal Rat.mul Rat.add Rat.sub Rat.inv in
/-- C4 witness: with the text overlay open and `"hi"` typed, switching to
the pen tool leaves the scene and history untouched, closes the overlay
and activates the pen tool. -/
theorem switchTool_cancels_text_witness :
    (switchTool Tool.pen c4state).scene = c4state.scene ∧
    (switchTool Tool.pen c4state).history = c4state.history ∧
    (switchTool Tool.pen c4state).historyIndex = c4state.historyIndex ∧
    (switchTool Tool.pen c4state).isEditingText = false ∧
    (switchTool Tool.pen c4state).currentTool = Tool.pen :=
  (switchTool_cancels_text c4state Tool.pen (by decide)).1

unseal Rat.mul Rat.add Rat.sub Rat.inv in
/-- C4 counterexample: the claim says switching tools force-confirms the
entry, committing a `Text` annotation when the trimmed text is non-empty;
but with `"hi"` entered the tool switch leaves the texts list empty and
the history unchanged (the entry is cancelled, not confirmed). -/
theorem switchTool_confirms_cex :
    c4state.isEditingText = true ∧
    jsTrim c4state.inputValue = "hi" ∧
    c4state.pendingText.isSome = true ∧
    (switchTool Tool.pen c4state).scene.texts = [] ∧
    (switchTool Tool.pen c4state).history = c4state.history := by decide

/-! ## Lemmas: degenerate strokes -/

theorem polyHitB_short (x y : ℚ) (l : List Point) (h : l.length < 2) :
    polyHitB x y l = false := by
  cases l with
  | nil => rfl
  | cons p t =>
    cases t with
    | nil => rfl
    | cons q r =>
      exfalso
      simp only [List.length_cons] at h
      omega

/-- C9: a stroke with fewer than two points is never returned by
`findAnnotationAtPoint` (its segment loop never runs), although a
single-point stroke is committable — a pen click yields a one-point stroke
and `handleMouseUp` commits it (one point crosses the pen threshold) — and
`drawStroke` renders it as a dot of radius `lineWidth / 2`.  Such a dot
stroke is therefore unreachable by the select tool. -/
theorem dot_stroke_unselectable (measure : String → ℚ) :
    (∀ (sc : Scene) (x y : ℚ) (i : Nat) (str : Stroke), sc.strokes.get? i = some str →
       str.points.length < 2 → findAnnotationAtPoint measure sc x y ≠ some (Hit.stroke i))
  ∧ (∀ (s : EditorState) (str : Stroke), s.isDrawing = true → s.currentTool = Tool.pen →
       s.currentStroke = some str → str.points.length = 1 →
       handleMouseUp s = commitPen s str)
  ∧ (∀ (str : Stroke) (p : Point), str.points = [p] →
       drawStrokeRender str = StrokeRender.dot p (str.lineWidth / 2)) := by
  refine ⟨fun sc x y i str hget hlen hfind => ?_,
    fun s str hdraw ht hc hlen => ?_, fun str p hp => ?_⟩
  · rw [find_eq_stroke_iff] at hfind
    rcases hfind with ⟨-, -, -, -, hsome⟩
    rw [revFind_eq_some_iff_maxHitIdx] at hsome
    rcases hsome with ⟨hi, hhit, -⟩
    unfold idxHit at hhit
    rw [hget] at hhit
    dsimp only at hhit
    unfold strokeHitB at hhit
    rw [polyHitB_short x y str.points hlen] at hhit
    cases hhit
  · have h := (handleMouseUp_commit_spec s hdraw).1 str ht hc
    rw [h, if_pos (by omega)]
  · unfold drawStrokeRender
    rw [hp]
    rfl

unseal Rat.mul Rat.add Rat.sub Rat.inv in
/-- C9 witness: a committed one-point stroke at (5,5) is not hit even at
its own centre; a pen click at (5,5) commits exactly that stroke; it
renders as a dot of radius 2. -/
theorem dot_stroke_unselectable_witness :
    (findAnnotationAtPoint measureZero c9scene 5 5 ≠ some (Hit.stroke 0)) ∧
    handleMouseUp c9penState = commitPen c9penState (Stroke.mk "#ef4444" 4 [Point.mk 5 5]) ∧
    drawStrokeRender (Stroke.mk "#ef4444" 4 [Point.mk 5 5]) =
      StrokeRender.dot (Point.mk 5 5) ((4 : ℚ) / 2) := by
  refine ⟨(dot_stroke_unselectable measureZero).1 c9scene 5 5 0
      (Stroke.mk "#ef4444" 4 [Point.mk 5 5]) (by decide) (by decide),
    (dot_stroke_unselectable measureZero).2.1 c9penState
      (Stroke.mk "#ef4444" 4 [Point.mk 5 5]) (by decide) (by decide) (by decide) (by decide),
    (dot_stroke_unselectable measureZero).2.2
      (Stroke.mk "#ef4444" 4 [Point.mk 5 5]) (Point.mk 5 5) rfl⟩

/-- C10: the proportional resize of arrows and strokes is total — the
per-axis scale divisor `original.dim || 1` is never zero (a zero dimension
is replaced by 1), so in the division-checked semantics (where dividing by
zero poisons the result, standing for `NaN`/`Infinity`) the transform
always returns a value, and that value agrees with
`applyBoundsToAnnotation`. -/
theorem resize_scale_total (a : Arrow) (st : Stroke) (newB origB : Bounds) :
    jsOrOne origB.width ≠ 0
  ∧ jsOrOne origB.height ≠ 0
  ∧ (origB.width = 0 → jsOrOne origB.width = 1)
  ∧ (origB.height = 0 → jsOrOne origB.height = 1)
  ∧ (∃ a2, applyArrowBoundsChecked a newB origB = some a2 ∧
       applyBoundsToAnnot newB origB (Annot.arrow a) = Annot.arrow a2)
  ∧ (∃ s2, applyStrokeBoundsChecked st newB origB = some s2 ∧
       applyBoundsToAnnot newB origB (Annot.stroke st) = Annot.stroke s2) := by
  have hw : jsOrOne origB.width ≠ 0 := by
    unfold jsOrOne
    by_cases h : origB.width = 0
    · rw [if_pos h]; norm_num
    · rw [if_neg h]; exact h
  have hh : jsOrOne origB.height ≠ 0 := by
    unfold jsOrOne
    by_cases h : origB.height = 0
    · rw [if_pos h]; norm_num
    · rw [if_neg h]; exact h
  refine ⟨hw, hh, fun h0 => by unfold jsOrOne; rw [if_pos h0],
    fun h0 => by unfold jsOrOne; rw [if_pos h0], ⟨_, ?_, rfl⟩, ⟨_, ?_, rfl⟩⟩
  · unfold applyArrowBoundsChecked qdivChecked
    rw [if_neg hw, if_neg hh]
    rfl
  · unfold applyStrokeBoundsChecked qdivChecked
    rw [if_neg hw, if_neg hh]
    rfl

unseal Rat.mul Rat.add Rat.sub Rat.inv in
/-- C10 witness: a perfectly vertical arrow (original bounds of width 0):
the divisor is 1, the checked transform succeeds and agrees with the
unchecked one. -/
theorem resize_scale_total_witness :
    jsOrOne (Bounds.mk 3 4 0 7).width = 1 ∧
    (∃ a2, applyArrowBoundsChecked (Arrow.mk 3 4 3 11 "#ef4444" 2)
        (Bounds.mk 0 0 10 10) (Bounds.mk 3 4 0 7) = some a2 ∧
      applyBoundsToAnnot (Bounds.mk 0 0 10 10) (Bounds.mk 3 4 0 7)
        (Annot.arrow (Arrow.mk 3 4 3 11 "#ef4444" 2)) = Annot.arrow a2) := by
  have h := resize_scale_total (Arrow.mk 3 4 3 11 "#ef4444" 2)
    (Stroke.mk "#ef4444" 2 []) (Bounds.mk 0 0 10 10) (Bounds.mk 3 4 0 7)
  exact ⟨h.2.2.1 rfl, h.2.2.2.2.1⟩

unseal Rat.mul Rat.add Rat.sub Rat.inv in
/-- C1: `saveToHistory`'s stroke clone copies the points *array* with a
spread but aliases the `Point` objects inside; `moveAnnotation`'s stroke
case mutates those objects in place.  At the concrete failing input — a
live stroke with points (0,0),(10,10), snapshotted, then moved by (5,5) —
the stored history entry's observable points become (5,5),(15,15): the
snapshot is corrupted by the later mutation, contradicting the deep-copy
claim (and making undo of a stroke move ineffective). -/
theorem history_stroke_aliasing_bug :
    c1entry.points = c1live.points ∧
    derefStroke c1heap c1entry = Stroke.mk "#ef4444" 4 [Point.mk 0 0, Point.mk 10 10] ∧
    derefStroke c1heapMoved c1entry = Stroke.mk "#ef4444" 4 [Point.mk 5 5, Point.mk 15 15] ∧
    derefStroke c1heapMoved c1entry ≠ derefStroke c1heap c1entry := by decide

/-! ## Lemmas: bounds arithmetic for resize idempotence -/

theorem foldl_min_le_init (f : Point → ℚ) :
    ∀ (l : List Point) (a : ℚ), l.foldl (fun m q => min m (f q)) a ≤ a := by
  intro l
  induction l with
  | nil => intro a; simp
  | cons p t ih =>
    intro a
    rw [List.foldl_cons]
    calc List.foldl (fun m q => min m (f q)) (min a (f p)) t ≤ min a (f p) := ih _
      _ ≤ a := min_le_left _ _

theorem foldl_min_le_mem (f : Point → ℚ) :
    ∀ (l : List Point) (a : ℚ) (q : Point), q ∈ l →
      l.foldl (fun m q' => min m (f q')) a ≤ f q := by
  intro l
  induction l with
  | nil => intro a q hq; cases hq
  | cons p t ih =>
    intro a q hq
    rw [List.foldl_cons]
    rcases List.mem_cons.mp hq with rfl | hmem
    · calc List.foldl (fun m q' => min m (f q')) (min a (f q)) t ≤ min a (f q) :=
        foldl_min_le_init f t _
        _ ≤ f q := min_le_right _ _
    · exact ih _ q hmem

theorem le_foldl_max_init (f : Point → ℚ) :
    ∀ (l : List Point) (a : ℚ), a ≤ l.foldl (fun m q => max m (f q)) a := by
  intro l
  induction l with
  | nil => intro a; simp
  | cons p t ih =>
    intro a
    rw [List.foldl_cons]
    calc a ≤ max a (f p) := le_max_left _ _
      _ ≤ List.foldl (fun m q => max m (f q)) (max a (f p)) t := ih _

theorem le_foldl_max_mem (f : Point → ℚ) :
    ∀ (l : List Point) (a : ℚ) (q : Point), q ∈ l →
      f q ≤ l.foldl (fun m q' => max m (f q')) a := by
  intro l
  induction l with
  | nil => intro a q hq; cases hq
  | cons p t ih =>
    intro a q hq
    rw [List.foldl_cons]
    rcases List.mem_cons.mp hq with rfl | hmem
    · calc f q ≤ max a (f q) := le_max_right _ _
        _ ≤ List.foldl (fun m q' => max m (f q')) (max a (f q)) t := le_foldl_max_init f t _
    · exact ih _ q hmem

theorem scale_self_fix (bx w c : ℚ) (hlb : bx ≤ c) (hub : c ≤ bx + w) :
    bx + (c - bx) * (w / jsOrOne w) = c := by
  by_cases hw : w = 0
  · have hc : c = bx := le_antisymm (by rw [hw] at hub; linarith) hlb
    rw [hw, hc]
    simp
  · unfold jsOrOne
    rw [if_neg hw, div_self hw]
    ring

theorem le_min_add_abs (u v : ℚ) : u ≤ min u v + |v - u| := by
  rcases le_total u v with h | h
  · rw [min_eq_left h, abs_of_nonneg (by linarith)]
    linarith
  · rw [min_eq_right h, abs_of_nonpos (by linarith)]
    linarith

theorem le_min_add_abs' (u v : ℚ) : v ≤ min u v + |v - u| := by
  rcases le_total u v with h | h
  · rw [min_eq_left h, abs_of_nonneg (by linarith)]
    linarith
  · rw [min_eq_right h, abs_of_nonpos (by linarith)]
    linarith

theorem strokeBounds_mem (s : Stroke) (B : Bounds) (h : s.getBounds = some B) :
    ∀ q ∈ s.points, (B.x ≤ q.x ∧ q.x ≤ B.x + B.width) ∧
      (B.y ≤ q.y ∧ q.y ≤ B.y + B.height) := by
  cases hp : s.points with
  | nil => intro q hq; cases hq
  | cons p ps =>
    unfold Stroke.getBounds at h
    rw [hp] at h
    dsimp only at h
    rw [Option.some.injEq] at h
    subst h
    intro q hq
    dsimp only
    have hminx : ps.foldl (fun m q' => min m q'.x) p.x ≤ q.x := by
      rcases List.mem_cons.mp hq with rfl | hmem
      · exact foldl_min_le_init _ ps _
      · exact foldl_min_le_mem _ ps _ q hmem
    have hmaxx : q.x ≤ ps.foldl (fun m q' => max m q'.x) p.x := by
      rcases List.mem_cons.mp hq with rfl | hmem
      · exact le_foldl_max_init _ ps _
      · exact le_foldl_max_mem _ ps _ q hmem
    have hminy : ps.foldl (fun m q' => min m q'.y) p.y ≤ q.y := by
      rcases List.mem_cons.mp hq with rfl | hmem
      · exact foldl_min_le_init _ ps _
      · exact foldl_min_le_mem _ ps _ q hmem
    have hmaxy : q.y ≤ ps.foldl (fun m q' => max m q'.y) p.y := by
      rcases List.mem_cons.mp hq with rfl | hmem
      · exact le_foldl_max_init _ ps _
      · exact le_foldl_max_mem _ ps _ q hmem
    exact ⟨⟨hminx, by linarith⟩, ⟨hminy, by linarith⟩⟩

/-- C8: applying the resize transform with `newBounds = originalBounds = B`
(the annotation's own computed bounds, including bounds with a dimension
below the 10px minimum, which only `resizeAnnotation`'s pre-clamp would
alter) leaves the computed bounds equal to `B`, for every annotation
variant. -/
theorem applyBounds_idempotent (measure : String → ℚ) (a : Annot) (B : Bounds)
    (h : a.getBoundsA measure = some B) :
    (applyBoundsToAnnot B B a).getBoundsA measure = some B := by
  cases a with
  | rectangle r =>
    simp only [Annot.getBoundsA, Option.some.injEq] at h
    subst h
    simp only [applyBoundsToAnnot, Annot.getBoundsA, Option.some.injEq]
    unfold Rectangle.getBounds
    dsimp only
    simp [abs_nonneg, abs_abs]
  | blur b =>
    simp only [Annot.getBoundsA, Option.some.injEq] at h
    subst h
    simp only [applyBoundsToAnnot, Annot.getBoundsA, Option.some.injEq]
    unfold BlurRegion.getBounds
    dsimp only
    simp [abs_nonneg, abs_abs]
  | ellipse e =>
    simp only [Annot.getBoundsA, Option.some.injEq] at h
    subst h
    simp only [applyBoundsToAnnot, Annot.getBoundsA, Option.some.injEq]
    unfold Ellipse.getBounds
    dsimp only
    simp only [Bounds.mk.injEq]
    refine ⟨by ring, by ring, by ring, by ring⟩
  | text t =>
    simp only [Annot.getBoundsA, Option.some.injEq] at h
    subst h
    simp only [applyBoundsToAnnot, Annot.getBoundsA, Option.some.injEq]
    unfold TextAnn.getBounds
    dsimp only
    simp only [Bounds.mk.injEq]
    refine ⟨by ring, by ring, by ring, by ring⟩
  | arrow a =>
    simp only [Annot.getBoundsA, Option.some.injEq] at h
    have htrans : applyBoundsToAnnot B B (Annot.arrow a) = Annot.arrow a := by
      subst h
      simp only [applyBoundsToAnnot]
      congr 1
      unfold Arrow.getBounds
      dsimp only
      have hx1 := scale_self_fix (min a.startX a.endX) |a.endX - a.startX| a.startX
        (min_le_left _ _) (le_min_add_abs _ _)
      have hx2 := scale_self_fix (min a.startX a.endX) |a.endX - a.startX| a.endX
        (min_le_right _ _) (le_min_add_abs' _ _)
      have hy1 := scale_self_fix (min a.startY a.endY) |a.endY - a.startY| a.startY
        (min_le_left _ _) (le_min_add_abs _ _)
      have hy2 := scale_self_fix (min a.startY a.endY) |a.endY - a.startY| a.endY
        (min_le_right _ _) (le_min_add_abs' _ _)
      rw [hx1, hx2, hy1, hy2]
    rw [htrans]
    simp only [Annot.getBoundsA, Option.some.injEq]
    exact h
  | stroke s =>
    have hmem := strokeBounds_mem s B h
    have htrans : applyBoundsToAnnot B B (Annot.stroke s) = Annot.stroke s := by
      simp only [applyBoundsToAnnot]
      congr 1
      have hmap : s.points.map (fun q => (⟨B.x + (q.x - B.x) * (B.width / jsOrOne B.width),
          B.y + (q.y - B.y) * (B.height / jsOrOne B.height)⟩ : Point)) = s.points := by
        conv_rhs => rw [← List.map_id s.points]
        apply List.map_congr_left
        intro q hq
        have h1 := (hmem q hq).1
        have h2 := (hmem q hq).2
        cases q with
        | mk qx qy =>
          simp only [id_eq, Point.mk.injEq]
          dsimp only at h1 h2
          exact ⟨scale_self_fix _ _ _ h1.1 h1.2, scale_self_fix _ _ _ h2.1 h2.2⟩
      rw [hmap]
    rw [htrans]
    exact h

unseal Rat.mul Rat.add Rat.sub Rat.inv in
/-- C8 witness: a 4×3 rectangle (both dimensions below the 10px minimum)
with bounds B = (5,5,4,3): applying the bounds transform with
`newBounds = originalBounds = B` leaves its bounds equal to B. -/
theorem applyBounds_idempotent_witness :
    (applyBoundsToAnnot (Bounds.mk 5 5 4 3) (Bounds.mk 5 5 4 3)
        (Annot.rectangle c8rect)).getBoundsA measureZero = some (Bounds.mk 5 5 4 3) :=
  applyBounds_idempotent measureZero (Annot.rectangle c8rect) (Bounds.mk 5 5 4 3) (by decide)

end SnapHero
